import Mathlib

/-!
Shallow embedding of the plan-normalization pipeline of
`src/agents/planner_agent.py` (class `PlannerAgent`), and proofs about it.

Python dictionaries produced by `json.loads` and manipulated by the planner
are modelled by the inductive type `J` below; Python exceptions are modelled
by `Except PyErr`.  The generative-model invocations (`self.llm(...)`) and
the behavior of `json.loads` are external collaborators and enter the model
as explicit inputs (`PlanEnv`).
-/

namespace MultiAgent

/-- JSON-like values: the shape of the data `json.loads` returns and the
planner manipulates.  Objects are ordered key/value lists, matching Python
dict insertion order. -/
inductive J : Type where
  | null : J
  | bool : Bool → J
  | num : Int → J
  | str : String → J
  | arr : List J → J
  | obj : List (String × J) → J

mutual

/-- Structural equality on `J`, used to model Python `==` where the planner
compares values (only ever against strings, where the two notions agree). -/
def jEq : J → J → Bool
  | J.null, J.null => true
  | J.bool a, J.bool b => a == b
  | J.num a, J.num b => a == b
  | J.str a, J.str b => a == b
  | J.arr xs, J.arr ys => jEqList xs ys
  | J.obj xs, J.obj ys => jEqObj xs ys
  | _, _ => false

/-- Pointwise equality of value lists. -/
def jEqList : List J → List J → Bool
  | [], [] => true
  | x :: xs, y :: ys => jEq x y && jEqList xs ys
  | _, _ => false

/-- Pointwise equality of key/value lists. -/
def jEqObj : List (String × J) → List (String × J) → Bool
  | [], [] => true
  | kv :: xs, lw :: ys => kv.1 == lw.1 && jEq kv.2 lw.2 && jEqObj xs ys
  | _, _ => false

end

/-- Key lookup in an object, first match wins (keys are unique in practice). -/
def objGet : List (String × J) → String → Option J
  | [], _ => none
  | kv :: kvs, key => if kv.1 = key then some kv.2 else objGet kvs key

/-- Python `key in d` for a dict: key membership. -/
def objMem (kvs : List (String × J)) (key : String) : Bool :=
  (objGet kvs key).isSome

/-- Python `d[key] = v`: overwrite in place if the key is present, append
otherwise (dict insertion-order semantics). -/
def objSet : List (String × J) → String → J → List (String × J)
  | [], key, v => [(key, v)]
  | kv :: kvs, key, v => if kv.1 = key then (key, v) :: kvs else kv :: objSet kvs key v

/-- Python exceptions that the planner code can raise or catch. -/
inductive PyErr : Type where
  /-- `KeyError` with the missing key. -/
  | keyError : String → PyErr
  /-- `TypeError` (bad receiver for an item access / membership test). -/
  | typeError : PyErr
  /-- `IndexError` (sequence index out of range). -/
  | indexError : PyErr
  /-- `AttributeError` (e.g. `.strip()` or `.get()` on a non-supporting value). -/
  | attributeError : PyErr
  /-- `UnboundLocalError` (reading a local variable before assignment). -/
  | unboundLocal : PyErr
  /-- `json.JSONDecodeError` raised by `json.loads`. -/
  | decodeError : PyErr
  /-- Any other exception, e.g. a model-invocation failure inside `llama_cpp`. -/
  | other : String → PyErr
deriving DecidableEq

/-- Is a value a Python dict (JSON object)? -/
def isObj : J → Bool
  | J.obj _ => true
  | _ => false

/-- Tests that `cs` is a prefix of the second list. -/
def listHead : List Char → List Char → Bool
  | [], _ => true
  | _ :: _, [] => false
  | c :: cs, d :: ds => c == d && listHead cs ds

/-- Tests that `need` occurs as a contiguous sublist (substring) of the second list. -/
def listSub (need : List Char) : List Char → Bool
  | [] => listHead need []
  | d :: ds => listHead need (d :: ds) || listSub need ds

/-- Python string membership `needle in hay` (substring test). -/
def strIn (need hay : String) : Bool := listSub need.toList hay.toList

/-- Python `key in v` for a string key: dict key membership, list element
search, substring test on strings; `TypeError` on other receivers. -/
def pyContains : J → String → Except PyErr Bool
  | J.obj kvs, key => .ok (objMem kvs key)
  | J.arr xs, key => .ok (xs.any (fun x => jEq x (J.str key)))
  | J.str s, key => .ok (strIn key s)
  | _, _ => .error .typeError

/-- Python `v[key]` for a string key: dict lookup (`KeyError` when absent),
`TypeError` on non-dicts (string/list indices must be integers, and other
values are not subscriptable). -/
def pyGetItem : J → String → Except PyErr J
  | J.obj kvs, key =>
      match objGet kvs key with
      | some v => .ok v
      | none => .error (.keyError key)
  | _, _ => .error .typeError

/-- Python `v[key] = x` for a string key: dict item assignment, `TypeError`
on anything else. -/
def pySetItem : J → String → J → Except PyErr J
  | J.obj kvs, key, x => .ok (J.obj (objSet kvs key x))
  | _, _, _ => .error .typeError

/-- Python `v.get(key, default)`: dict lookup with a default;
`AttributeError` when the receiver is not a dict. -/
def pyDictGet : J → String → J → Except PyErr J
  | J.obj kvs, key, dflt => .ok ((objGet kvs key).getD dflt)
  | _, _, _ => .error .attributeError

/-- Python `v[0]`: first list element (`IndexError` on an empty list), first
character of a string, `KeyError` on dicts with string keys, `TypeError`
otherwise. -/
def pyIndexZero : J → Except PyErr J
  | J.arr [] => .error .indexError
  | J.arr (x :: _) => .ok x
  | J.str s =>
      match s.toList with
      | [] => .error .indexError
      | c :: _ => .ok (J.str (String.mk [c]))
  | J.obj _ => .error (.keyError "0")
  | _ => .error .typeError

/-- The whitespace characters stripped by Python `str.strip()`. -/
def isSpaceChar (c : Char) : Bool :=
  c == ' ' || c == '\t' || c == '\n' || c == '\r' || c == Char.ofNat 11 || c == Char.ofNat 12

/-- Python `s.strip()`. -/
def pyStrip (s : String) : String :=
  String.mk (((s.toList.dropWhile isSpaceChar).reverse.dropWhile isSpaceChar).reverse)

/-- ASCII lower-casing of one character. -/
def lowerChar (c : Char) : Char :=
  if 'A' ≤ c && c ≤ 'Z' then Char.ofNat (c.toNat + 32) else c

/-- Python `s.lower()` (ASCII fragment; every string this code compares is
ASCII). -/
def pyLower (s : String) : String := String.mk (s.toList.map lowerChar)

/-! ## The template catalog (`PlannerAgent.domain_templates`) -/

/-- The list `domain_templates["marketplace"]["core_features"]`. -/
def mktCoreFeatures : J := J.arr [
  J.str "User authentication and profiles",
  J.str "Product catalog with advanced filtering",
  J.str "Shopping cart and wishlist",
  J.str "Secure payment processing",
  J.str "Order management and tracking",
  J.str "Product search and recommendations",
  J.str "User reviews and ratings",
  J.str "Admin dashboard for product management"]

/-- A page record `{"name": ..., "components": [...]}`. -/
def mkPage (name : String) (components : List String) : J :=
  J.obj [("name", J.str name), ("components", J.arr (components.map J.str))]

/-- The list `domain_templates["marketplace"]["pages"]`. -/
def mktPages : J := J.arr [
  mkPage "Home" ["Hero section", "Featured products", "Category navigation", "Footer"],
  mkPage "Product Listing" ["Filter sidebar", "Product grid", "Sort options", "Pagination"],
  mkPage "Product Detail"
    ["Product images", "Product info", "Size/color selector", "Add to cart", "Reviews"],
  mkPage "Shopping Cart" ["Cart items", "Quantity controls", "Price summary", "Checkout button"],
  mkPage "Checkout" ["Shipping form", "Payment form", "Order summary", "Place order"],
  mkPage "User Profile" ["Account info", "Order history", "Wishlist", "Address book"],
  mkPage "Admin Dashboard"
    ["Product management", "Order management", "Analytics", "User management"]]

/-- The dict `domain_templates["marketplace"]["file_structure"]`. -/
def mktFileStructure : J := J.obj [
  ("index.html", J.str "Main HTML entry point"),
  ("src/App.js", J.str "Main React app component"),
  ("src/components/ProductCard.js", J.str "Individual product display"),
  ("src/components/ProductGrid.js", J.str "Grid of products"),
  ("src/components/CartItem.js", J.str "Shopping cart item component"),
  ("src/components/FilterSidebar.js", J.str "Product filtering interface"),
  ("src/components/Header.js", J.str "Navigation header with cart icon"),
  ("src/pages/Home.js", J.str "Homepage with featured products"),
  ("src/pages/ProductListing.js", J.str "Product catalog page"),
  ("src/pages/ProductDetail.js", J.str "Individual product page"),
  ("src/pages/Cart.js", J.str "Shopping cart page"),
  ("src/pages/Checkout.js", J.str "Checkout flow"),
  ("src/pages/Profile.js", J.str "User profile page"),
  ("src/pages/Admin.js", J.str "Admin dashboard"),
  ("src/api/products.js", J.str "Product API service"),
  ("src/api/cart.js", J.str "Cart API service"),
  ("src/api/orders.js", J.str "Order management API"),
  ("src/api/auth.js", J.str "Authentication API"),
  ("src/utils/auth.js", J.str "Authentication utilities"),
  ("src/utils/cart.js", J.str "Cart management utilities"),
  ("src/hooks/useAuth.js", J.str "Authentication React hook"),
  ("src/hooks/useCart.js", J.str "Cart management React hook"),
  ("src/styles/globals.css", J.str "Global styles"),
  ("src/styles/components.css", J.str "Component-specific styles")]

/-- The template `domain_templates["marketplace"]`: it has all three entries. -/
def marketplaceTemplate : List (String × J) :=
  [("core_features", mktCoreFeatures), ("pages", mktPages), ("file_structure", mktFileStructure)]

/-- The list `domain_templates["dashboard"]["core_features"]`. -/
def dashCoreFeatures : J := J.arr [
  J.str "User authentication and authorization",
  J.str "Data visualization and analytics",
  J.str "Real-time data updates",
  J.str "Interactive charts and graphs",
  J.str "Data filtering and search",
  J.str "Export functionality",
  J.str "User management",
  J.str "Settings and configuration"]

/-- The list `domain_templates["dashboard"]["pages"]`. -/
def dashPages : J := J.arr [
  mkPage "Dashboard" ["Overview cards", "Charts", "Recent activity", "Quick actions"],
  mkPage "Analytics" ["Data charts", "Filters", "Date range picker", "Export tools"],
  mkPage "Settings" ["User preferences", "System settings", "Integrations"],
  mkPage "Profile" ["User info", "Security settings", "Notification preferences"]]

/-- The template `domain_templates["dashboard"]`: note it has no `file_structure` entry. -/
def dashboardTemplate : List (String × J) :=
  [("core_features", dashCoreFeatures), ("pages", dashPages)]

/-- The list `domain_templates["social"]["core_features"]`. -/
def socCoreFeatures : J := J.arr [
  J.str "User profiles and authentication",
  J.str "Post creation and sharing",
  J.str "Real-time messaging",
  J.str "Friend/follower system",
  J.str "Content feed algorithm",
  J.str "Media upload and sharing",
  J.str "Notifications system",
  J.str "Content moderation"]

/-- The list `domain_templates["social"]["pages"]`. -/
def socPages : J := J.arr [
  mkPage "Feed" ["Post creation", "News feed", "Story highlights", "Trending"],
  mkPage "Profile" ["Profile info", "Post grid", "Followers/following", "Settings"],
  mkPage "Messages" ["Chat list", "Message thread", "Media sharing", "Online status"],
  mkPage "Explore" ["Trending posts", "Suggested users", "Topics", "Search"]]

/-- The template `domain_templates["social"]`: note it has no `file_structure` entry. -/
def socialTemplate : List (String × J) :=
  [("core_features", socCoreFeatures), ("pages", socPages)]

/-- The catalog `PlannerAgent.domain_templates`: the static template catalog set up in
`__init__`. -/
def domainTemplates : List (String × J) :=
  [("marketplace", J.obj marketplaceTemplate),
   ("dashboard", J.obj dashboardTemplate),
   ("social", J.obj socialTemplate)]

/-! ## Serialization (`json.dumps`, as used by the genericity check) -/

/-- JSON string-escaping of one character (the fragment of `json.dumps`
escaping relevant to the plan strings, which are printable ASCII). -/
def escChar (c : Char) : List Char :=
  if c = '"' then ['\\', '"']
  else if c = '\\' then ['\\', '\\']
  else if c = '\n' then ['\\', 'n']
  else if c = '\t' then ['\\', 't']
  else if c = '\r' then ['\\', 'r']
  else [c]

/-- A JSON string literal. -/
def dumpStr (s : String) : String :=
  "\"" ++ String.mk (s.toList.map escChar).flatten ++ "\""

mutual

/-- Models `json.dumps(v)` with the default separators `", "` and `": "`. -/
def jDump : J → String
  | J.null => "null"
  | J.bool true => "true"
  | J.bool false => "false"
  | J.num n => toString n
  | J.str s => dumpStr s
  | J.arr xs => "[" ++ jDumpList xs ++ "]"
  | J.obj kvs => "\x7b" ++ jDumpObj kvs ++ "\x7d"

/-- Comma-separated dump of list elements. -/
def jDumpList : List J → String
  | [] => ""
  | [x] => jDump x
  | x :: xs => jDump x ++ ", " ++ jDumpList xs

/-- Comma-separated dump of object entries. -/
def jDumpObj : List (String × J) → String
  | [] => ""
  | [kv] => dumpStr kv.1 ++ ": " ++ jDump kv.2
  | kv :: kvs => dumpStr kv.1 ++ ": " ++ jDump kv.2 ++ ", " ++ jDumpObj kvs

end

/-! ## `PlannerAgent` logic -/

/-- The `generic_indicators` list of `PlannerAgent._is_plan_too_generic`. -/
def genericIndicators : List String :=
  ["To be defined based on goal", "Modern web technologies", "Main content", "Content area"]

/-- Models `PlannerAgent._is_plan_too_generic`: serialize the plan, lower-case it,
and look for any of the placeholder phrases (lower-cased) as a substring. -/
def isPlanTooGeneric (plan : J) : Bool :=
  let planStr := pyLower (jDump plan)
  genericIndicators.any (fun ind => strIn (pyLower ind) planStr)

/-- First block of `PlannerAgent._enhance_with_domain_content`:
`if "requirements" in plan.get("planner", {}):
plan["planner"]["requirements"]["core_features"] = template["core_features"]`
(the right-hand side is evaluated first, as in Python). -/
def enhanceRequirements (template plan : J) : Except PyErr J := do
  let pl0 ← pyDictGet plan "planner" (J.obj [])
  let hasReq ← pyContains pl0 "requirements"
  if hasReq then do
    let cf ← pyGetItem template "core_features"
    let pl ← pyGetItem plan "planner"
    let req ← pyGetItem pl "requirements"
    let req2 ← pySetItem req "core_features" cf
    let pl2 ← pySetItem pl "requirements" req2
    pySetItem plan "planner" pl2
  else pure plan

/-- Second block of `PlannerAgent._enhance_with_domain_content`:
`if "pages" in plan.get("designer", {}):
plan["designer"]["pages"] = template["pages"]`. -/
def enhancePages (template plan : J) : Except PyErr J := do
  let de0 ← pyDictGet plan "designer" (J.obj [])
  let hasPg ← pyContains de0 "pages"
  if hasPg then do
    let pg ← pyGetItem template "pages"
    let de ← pyGetItem plan "designer"
    let de2 ← pySetItem de "pages" pg
    pySetItem plan "designer" de2
  else pure plan

/-- Third block of `PlannerAgent._enhance_with_domain_content`:
`if "file_structure" in plan.get("coder", {}):
plan["coder"]["file_structure"] = template["file_structure"]`.
The lookup `template["file_structure"]` raises `KeyError` for the dashboard
and social templates, which lack that entry. -/
def enhanceFileStructure (template plan : J) : Except PyErr J := do
  let co0 ← pyDictGet plan "coder" (J.obj [])
  let hasFS ← pyContains co0 "file_structure"
  if hasFS then do
    let fs ← pyGetItem template "file_structure"
    let co ← pyGetItem plan "coder"
    let co2 ← pySetItem co "file_structure" fs
    pySetItem plan "coder" co2
  else pure plan

/-- Models `PlannerAgent._enhance_with_domain_content`: when the domain has a
template, run the three guarded overwrites in source order; otherwise return
the plan unchanged. -/
def enhanceWithDomainContent (plan : J) (_goal domain : String) : Except PyErr J :=
  match objGet domainTemplates domain with
  | none => .ok plan
  | some template =>
      enhanceRequirements template plan >>= enhancePages template >>=
        enhanceFileStructure template

/-- Models `plan["domain"] = domain` (the "Add domain to plan" block of
`PlannerAgent._ensure_critical_fields`). -/
def ensureDomainField (domain : String) (plan : J) : Except PyErr J :=
  pySetItem plan "domain" (J.str domain)

/-- The "Ensure planner requirements" block of
`PlannerAgent._ensure_critical_fields`:
`if "planner" not in plan: plan["planner"] = {}` and then
`if "requirements" not in plan["planner"]: plan["planner"]["requirements"] = {}`. -/
def ensurePlannerField (plan : J) : Except PyErr J := do
  let hasPl ← pyContains plan "planner"
  let p ← if hasPl then pure plan else pySetItem plan "planner" (J.obj [])
  let pl ← pyGetItem p "planner"
  let hasReq ← pyContains pl "requirements"
  if hasReq then pure p
  else do
    let pl2 ← pyGetItem p "planner"
    let pl3 ← pySetItem pl2 "requirements" (J.obj [])
    pySetItem p "planner" pl3

/-- The "Ensure coder file_structure" block of
`PlannerAgent._ensure_critical_fields`:
`if "coder" not in plan: plan["coder"] = {}` and then
`if "file_structure" not in plan["coder"] and domain in self.domain_templates:
plan["coder"]["file_structure"] = self.domain_templates[domain]["file_structure"]`. -/
def ensureCoderField (domain : String) (plan : J) : Except PyErr J := do
  let hasCo ← pyContains plan "coder"
  let p ← if hasCo then pure plan else pySetItem plan "coder" (J.obj [])
  let co ← pyGetItem p "coder"
  let hasFS ← pyContains co "file_structure"
  if !hasFS && objMem domainTemplates domain then do
    let t ← pyGetItem (J.obj domainTemplates) domain
    let fs ← pyGetItem t "file_structure"
    let co2 ← pyGetItem p "coder"
    let co3 ← pySetItem co2 "file_structure" fs
    pySetItem p "coder" co3
  else pure p

/-- The "Ensure designer pages" block of
`PlannerAgent._ensure_critical_fields`:
`if "designer" not in plan: plan["designer"] = {}` and then
`if "pages" not in plan["designer"] and domain in self.domain_templates:
plan["designer"]["pages"] = self.domain_templates[domain]["pages"]`. -/
def ensureDesignerField (domain : String) (plan : J) : Except PyErr J := do
  let hasDe ← pyContains plan "designer"
  let p ← if hasDe then pure plan else pySetItem plan "designer" (J.obj [])
  let de ← pyGetItem p "designer"
  let hasPg ← pyContains de "pages"
  if !hasPg && objMem domainTemplates domain then do
    let t ← pyGetItem (J.obj domainTemplates) domain
    let pg ← pyGetItem t "pages"
    let de2 ← pyGetItem p "designer"
    let de3 ← pySetItem de2 "pages" pg
    pySetItem p "designer" de3
  else pure p

/-- Models `PlannerAgent._ensure_critical_fields`: the four blocks in source order
(`goal` is accepted and unused, as in the Python signature). -/
def ensureCriticalFields (plan : J) (_goal domain : String) : Except PyErr J :=
  ensureDomainField domain plan >>= ensurePlannerField >>= ensureCoderField domain >>=
    ensureDesignerField domain

/-- Models `PlannerAgent._post_process_plan`: enhance when the plan looks generic,
then always ensure critical fields. -/
def postProcessPlan (plan : J) (goal domain : String) : Except PyErr J := do
  let p ← if isPlanTooGeneric plan then enhanceWithDomainContent plan goal domain
          else pure plan
  ensureCriticalFields p goal domain

/-- The `base_plan` literal of `PlannerAgent._create_domain_specific_fallback`;
`now` stands for `datetime.now().isoformat()`. -/
def fallbackBasePlan (goal domain now : String) : J :=
  J.obj [
    ("goal", J.str goal),
    ("project_type", J.str "web_application"),
    ("domain", J.str domain),
    ("planner", J.obj [
      ("subtasks", J.arr [
        J.str ("Define " ++ domain ++ " requirements and user stories"),
        J.str "Research relevant APIs and third-party services",
        J.str ("Plan technical architecture for " ++ domain ++ " application"),
        J.str "Create development timeline and milestones"]),
      ("requirements", J.obj [
        ("core_features", J.arr [J.str "To be defined based on goal"]),
        ("tech_stack", J.str "React.js frontend, Node.js backend, PostgreSQL database"),
        ("timeline", J.str "3-4 weeks")])]),
    ("coder", J.obj [
      ("tasks", J.arr [
        J.str "Set up project structure with chosen framework",
        J.str ("Implement " ++ domain ++ "-specific business logic"),
        J.str "Build user interface components",
        J.str "Add data persistence layer",
        J.str "Implement API integrations",
        J.str "Add authentication and testing"]),
      ("technical_specs", J.obj [
        ("frontend", J.str "React.js with TypeScript"),
        ("backend", J.str "Node.js/Express"),
        ("database", J.str "PostgreSQL"),
        ("deployment", J.str "Vercel")])]),
    ("designer", J.obj [
      ("theme", J.str ("Modern, clean design optimized for " ++ domain ++ " use case")),
      ("pages", J.arr []),
      ("design_system", J.obj [
        ("colors", J.obj [
          ("primary", J.str "#007bff"),
          ("secondary", J.str "#6c757d")]),
        ("typography", J.obj [
          ("headings", J.str "Inter Bold"),
          ("body", J.str "Inter Regular")])])]),
    ("generated_at", J.str now)]

/-- Models `PlannerAgent._create_domain_specific_fallback`: the base plan, with the
template's `core_features`, `file_structure` and `pages` grafted on (in that
source order, right-hand sides evaluated first) when the domain has a
template.  The `template["file_structure"]` lookup raises `KeyError` for the
dashboard and social templates. -/
def createDomainSpecificFallback (goal domain now : String) : Except PyErr J :=
  match objGet domainTemplates domain with
  | none => .ok (fallbackBasePlan goal domain now)
  | some template => do
    let base := fallbackBasePlan goal domain now
    let cf ← pyGetItem template "core_features"
    let pl ← pyGetItem base "planner"
    let req ← pyGetItem pl "requirements"
    let req2 ← pySetItem req "core_features" cf
    let pl2 ← pySetItem pl "requirements" req2
    let base ← pySetItem base "planner" pl2
    let fs ← pyGetItem template "file_structure"
    let co ← pyGetItem base "coder"
    let co2 ← pySetItem co "file_structure" fs
    let base ← pySetItem base "coder" co2
    let pg ← pyGetItem template "pages"
    let de ← pyGetItem base "designer"
    let de2 ← pySetItem de "pages" pg
    let base ← pySetItem base "designer" de2
    pure base

/-- Models `response["choices"][0]["text"].strip()` on a model response object.
The final step models Python `.strip()`, which raises `AttributeError` when
the extracted value is not a string. -/
def extractRespText (resp : J) : Except PyErr String := do
  let cs ← pyGetItem resp "choices"
  let c0 ← pyIndexZero cs
  let tx ← pyGetItem c0 "text"
  match tx with
  | J.str s => pure (pyStrip s)
  | _ => .error .attributeError

/-- The valid domain list of `PlannerAgent._detect_domain`. -/
def validDomains : List String := ["marketplace", "dashboard", "social", "general"]

/-- Models `PlannerAgent._detect_domain`, parameterized by the outcome of the
classification model call `self.llm(domain_prompt, max_tokens=5)`: either a
response object or a raised exception.  The whole call and validation sit in
a `try` whose `except Exception` arm returns `"general"`. -/
def detectDomain (llmResp : Except PyErr J) : String :=
  match (do
      let resp ← llmResp
      let s ← extractRespText resp
      pure (pyLower s) : Except PyErr String) with
  | .error _ => "general"
  | .ok d => if d ∈ validDomains then d else "general"

/-- The external behavior one `PlannerAgent.plan` run depends on: the outcome
of the planning-stage `self.llm(prompt, ...)` call (a response object, or a
raised exception) and the behavior of `json.loads` on strings. -/
structure PlanEnv where
  llmResp : Except PyErr J
  loads : String → Except PyErr J

/-- The body of the `try` block in `PlannerAgent.plan`: invoke the model,
extract and strip the text into `output`, decode it with `json.loads`,
attach `generated_at`, and post-process.  The error case also records
whether the local variable `output` had been assigned when the exception was
raised, because the `except` handler reads `output`. -/
def planTryBody (env : PlanEnv) (goal domain now : String) :
    Except (PyErr × Option String) J :=
  match env.llmResp with
  | .error e => .error (e, none)
  | .ok resp =>
    match extractRespText resp with
    | .error e => .error (e, none)
    | .ok out =>
      match env.loads out with
      | .error e => .error (e, some out)
      | .ok parsed =>
        match pySetItem parsed "generated_at" (J.str now) with
        | .error e => .error (e, some out)
        | .ok p =>
          match postProcessPlan p goal domain with
          | .error e => .error (e, some out)
          | .ok p2 => .ok p2

/-- Which exceptions the `except (json.JSONDecodeError, KeyError)` clause of
`PlannerAgent.plan` catches. -/
def isCaught : PyErr → Bool
  | .decodeError => true
  | .keyError _ => true
  | _ => false

/-- Models `PlannerAgent.plan` up to (and excluding) the file write: the final plan
object that is saved (and whose `planner.subtasks` are returned), or the
exception that propagates to the caller.  An uncaught exception propagates;
a caught one runs the handler, which reads `output` (raising
`UnboundLocalError` if it was never assigned) and then builds the fallback
plan — whose result is returned directly, without post-processing. -/
def planPipeline (env : PlanEnv) (goal domain now : String) : Except PyErr J :=
  match planTryBody env goal domain now with
  | .ok p => .ok p
  | .error (e, outB) =>
    if isCaught e then
      match outB with
      | none => .error .unboundLocal
      | some _ => createDomainSpecificFallback goal domain now
    else .error e

/-- Models `parsed_json.get("planner", {}).get("subtasks", [])`: the value
`PlannerAgent.plan` returns to its caller, given the final plan object. -/
def planSubtasks (p : J) : Except PyErr J := do
  let pl ← pyDictGet p "planner" (J.obj [])
  pyDictGet pl "subtasks" (J.arr [])

/-! ## Accessors used in the statements -/

/-- Top-level field of a plan object. -/
def planField : J → String → Option J
  | J.obj kvs, k => objGet kvs k
  | _, _ => none

/-- Is a top-level field present? -/
def planHas (p : J) (k : String) : Bool := (planField p k).isSome

/-- Two-level field access. -/
def planPath2 (p : J) (k1 k2 : String) : Option J :=
  match planField p k1 with
  | some v => planField v k2
  | none => none

/-- Is a two-level field present? -/
def planHas2 (p : J) (k1 k2 : String) : Bool := (planPath2 p k1 k2).isSome

/-- Three-level field access. -/
def planPath3 (p : J) (k1 k2 k3 : String) : Option J :=
  match planPath2 p k1 k2 with
  | some v => planField v k3
  | none => none

/-- Is a top-level field present with a non-null value? -/
def planFieldNonNull (p : J) (k : String) : Bool :=
  match planField p k with
  | some J.null => false
  | some _ => true
  | none => false

/-- The template catalog entry `self.domain_templates[domain][key]`, as an
option. -/
def templateEntry (d k : String) : Option J :=
  match objGet domainTemplates d with
  | some t => planField t k
  | none => none

/-- The `k` entry of a dict, when present, is itself a dict. -/
def wfObjField (kvs : List (String × J)) (k : String) : Bool :=
  match objGet kvs k with
  | none => true
  | some (J.obj _) => true
  | some _ => false

/-- A structurally well-formed §3 plan: a dict whose `planner`, `coder` and
`designer` entries, when present, are dicts, as is `planner.requirements`
when present. -/
def wfPlan : J → Bool
  | J.obj kvs =>
      wfObjField kvs "planner" && wfObjField kvs "coder" && wfObjField kvs "designer" &&
      (match objGet kvs "planner" with
       | some (J.obj kvp) => wfObjField kvp "requirements"
       | _ => true)
  | _ => false

/-! ## Concrete environments used in the end-to-end statements -/

/-- Planning-stage run where the model answers with the JSON text of an empty
object (a well-formed response whose stripped text decodes to `{}`). -/
def envEmptyObject : PlanEnv where
  llmResp := .ok (J.obj [("choices", J.arr [J.obj [("text", J.str "\x7b\x7d")]])])
  loads := fun s => if s = "\x7b\x7d" then .ok (J.obj []) else .error .decodeError

/-- Planning-stage run where the model answers with unparsable prose: every
decode attempt raises `json.JSONDecodeError`. -/
def envUnparsable : PlanEnv where
  llmResp := .ok (J.obj [("choices", J.arr [J.obj [("text", J.str "This is not JSON")]])])
  loads := fun _ => .error .decodeError

/-- Planning-stage run where the model call itself raises a generic
invocation error (network/resource failure inside `llama_cpp`). -/
def envModelFailure : PlanEnv where
  llmResp := .error (.other "model invocation failure")
  loads := fun _ => .error .decodeError

/-- Planning-stage run where the model answers with the JSON text `[]`,
which decodes to an array rather than an object. -/
def envArrayOutput : PlanEnv where
  llmResp := .ok (J.obj [("choices", J.arr [J.obj [("text", J.str "[]")]])])
  loads := fun s => if s = "[]" then .ok (J.arr []) else .error .decodeError

/-- Planning-stage run where the model answers with the JSON text `5`,
which decodes to a scalar. -/
def envScalarOutput : PlanEnv where
  llmResp := .ok (J.obj [("choices", J.arr [J.obj [("text", J.str "5")]])])
  loads := fun s => if s = "5" then .ok (J.num 5) else .error .decodeError

/-- Classification-stage response whose text resolves (after stripping and
lower-casing) to `marketplace`. -/
def clsMarketplaceResp : Except PyErr J :=
  .ok (J.obj [("choices", J.arr [J.obj [("text", J.str " Marketplace\n")]])])

/-! ## Basic lemmas about the embedding -/

@[simp] theorem except_bind_ok {α β ε : Type} (a : α) (f : α → Except ε β) :
    (Except.ok a >>= f) = f a := rfl

@[simp] theorem except_bind_error {α β ε : Type} (e : ε) (f : α → Except ε β) :
    ((Except.error e : Except ε α) >>= f) = .error e := rfl

@[simp] theorem except_pure_eq {α ε : Type} (a : α) : (pure a : Except ε α) = .ok a := rfl

theorem except_bind_eq_ok {α β ε : Type} {x : Except ε α} {f : α → Except ε β} {b : β}
    (h : x >>= f = .ok b) : ∃ a, x = .ok a ∧ f a = .ok b := by
  cases x with
  | ok a => exact ⟨a, rfl, h⟩
  | error e => simp at h

theorem objGet_objSet_self (kvs : List (String × J)) (key : String) (v : J) :
    objGet (objSet kvs key v) key = some v := by
  induction kvs with
  | nil => simp [objSet, objGet]
  | cons kv kvs ih =>
    by_cases h : kv.1 = key
    · simp [objSet, objGet, h]
    · simp [objSet, objGet, h, ih]

theorem objGet_objSet_ne (kvs : List (String × J)) (key key' : String) (v : J)
    (h : key' ≠ key) : objGet (objSet kvs key v) key' = objGet kvs key' := by
  induction kvs with
  | nil => simp [objSet, objGet, Ne.symm h]
  | cons kv kvs ih =>
    by_cases h2 : kv.1 = key
    · have h3 : kv.1 ≠ key' := by rw [h2]; exact Ne.symm h
      simp [objSet, objGet, h2, Ne.symm h, h3]
    · simp [objSet, objGet, h2, ih]

theorem objSet_eq_self (kvs : List (String × J)) (key : String) (v : J)
    (h : objGet kvs key = some v) : objSet kvs key v = kvs := by
  induction kvs with
  | nil => simp [objGet] at h
  | cons kv kvs ih =>
    obtain ⟨k, w⟩ := kv
    by_cases h2 : k = key
    · simp [objGet, h2] at h
      simp [objSet, h2, h]
    · simp [objGet, h2] at h
      simp [objSet, h2, ih h]

theorem objMem_some {kvs : List (String × J)} {k : String} (h : objMem kvs k = true) :
    ∃ v, objGet kvs k = some v := by
  unfold objMem at h
  cases hg : objGet kvs k with
  | none => rw [hg] at h; simp at h
  | some v => exact ⟨v, rfl⟩

theorem objMem_none {kvs : List (String × J)} {k : String} (h : objMem kvs k = false) :
    objGet kvs k = none := by
  unfold objMem at h
  cases hg : objGet kvs k with
  | none => rfl
  | some v => rw [hg] at h; simp at h

/-- Success description of the "Add domain to plan" block: the input must be
a dict, the `domain` key of the output holds the classifier's domain, and no
other key changes. -/
theorem stepDomain_post {d : String} {p q : J} (h : ensureDomainField d p = .ok q) :
    isObj q = true ∧ planField q "domain" = some (J.str d) ∧
    ∀ k, k ≠ "domain" → planField q k = planField p k := by
  cases p with
  | obj kvs =>
    have h2 : J.obj (objSet kvs "domain" (J.str d)) = q := by
      simpa [ensureDomainField, pySetItem] using h
    subst h2
    refine ⟨rfl, ?_, ?_⟩
    · simp [planField, objGet_objSet_self]
    · intro k hk
      simp [planField, objGet_objSet_ne _ _ _ _ hk]
  | null => simp [ensureDomainField, pySetItem] at h
  | bool b => simp [ensureDomainField, pySetItem] at h
  | num n => simp [ensureDomainField, pySetItem] at h
  | str s => simp [ensureDomainField, pySetItem] at h
  | arr xs => simp [ensureDomainField, pySetItem] at h

/-- A dict whose `domain` key already holds the domain is a fixed point of
the "Add domain to plan" block. -/
theorem stepDomain_fix {d : String} {q : J} (h1 : isObj q = true)
    (h2 : planField q "domain" = some (J.str d)) : ensureDomainField d q = .ok q := by
  cases q with
  | obj kvs =>
    simp only [planField] at h2
    simp [ensureDomainField, pySetItem, objSet_eq_self kvs "domain" _ h2]
  | null => simp [isObj] at h1
  | bool b => simp [isObj] at h1
  | num n => simp [isObj] at h1
  | str s => simp [isObj] at h1
  | arr xs => simp [isObj] at h1

/-- Success description of the "Ensure planner requirements" block: the
output is a dict whose `planner` value answers `true` to the
`"requirements" in ...` test, no other key changes, and the `planner` value
is either the untouched input value or a dict that has a `requirements`
key. -/
theorem stepPlanner_post {p q : J} (h : ensurePlannerField p = .ok q) :
    isObj q = true ∧
    (∀ k, k ≠ "planner" → planField q k = planField p k) ∧
    ∃ v, planField q "planner" = some v ∧ pyContains v "requirements" = .ok true ∧
      (planField p "planner" = some v ∨
        ∃ kvp, v = J.obj kvp ∧ objMem kvp "requirements" = true) := by
  cases p with
  | obj kvs =>
    simp only [ensurePlannerField, pyContains, except_bind_ok] at h
    cases hMem : objMem kvs "planner" with
    | true =>
      obtain ⟨vp, hvp⟩ := objMem_some hMem
      simp only [hMem, if_true, except_pure_eq, except_bind_ok, pyGetItem, hvp] at h
      cases vp with
      | obj kvp =>
        simp only [pyContains, except_bind_ok] at h
        cases hr : objMem kvp "requirements" with
        | true =>
          simp only [hr, if_true, except_pure_eq, Except.ok.injEq] at h
          subst h
          refine ⟨rfl, fun k _ => rfl, J.obj kvp, ?_, ?_, Or.inl ?_⟩
          · simp [planField, hvp]
          · simp [pyContains, hr]
          · simp [planField, hvp]
        | false =>
          simp only [hr] at h
          simp only [Bool.false_eq_true, if_false, pySetItem, except_bind_ok,
            Except.ok.injEq] at h
          subst h
          refine ⟨rfl, ?_, J.obj (objSet kvp "requirements" (J.obj [])), ?_, ?_, Or.inr ?_⟩
          · intro k hk
            simp [planField, objGet_objSet_ne _ _ _ _ hk]
          · simp [planField, objGet_objSet_self]
          · simp [pyContains, objMem, objGet_objSet_self]
          · exact ⟨_, rfl, by simp [objMem, objGet_objSet_self]⟩
      | arr xs =>
        simp only [pyContains, except_bind_ok] at h
        cases hr : xs.any (fun x => jEq x (J.str "requirements")) with
        | true =>
          simp only [hr, if_true, except_pure_eq, Except.ok.injEq] at h
          subst h
          refine ⟨rfl, fun k _ => rfl, J.arr xs, by simp [planField, hvp],
            by simp [pyContains, hr], Or.inl (by simp [planField, hvp])⟩
        | false => simp [hr, pySetItem] at h
      | str s =>
        simp only [pyContains, except_bind_ok] at h
        cases hr : strIn "requirements" s with
        | true =>
          simp only [hr, if_true, except_pure_eq, Except.ok.injEq] at h
          subst h
          refine ⟨rfl, fun k _ => rfl, J.str s, by simp [planField, hvp],
            by simp [pyContains, hr], Or.inl (by simp [planField, hvp])⟩
        | false => simp [hr, pySetItem] at h
      | null => simp [pyContains] at h
      | bool b => simp [pyContains] at h
      | num n => simp [pyContains] at h
    | false =>
      simp only [hMem] at h
      simp only [Bool.false_eq_true, if_false, pySetItem, except_bind_ok, pyGetItem,
        objGet_objSet_self, pyContains, objMem, objGet, Option.isSome_none,
        Except.ok.injEq] at h
      subst h
      refine ⟨rfl, ?_, J.obj (objSet [] "requirements" (J.obj [])), ?_, ?_, Or.inr ?_⟩
      · intro k hk
        simp [planField, objGet_objSet_ne _ _ _ _ hk]
      · simp [planField, objGet_objSet_self]
      · simp [pyContains, objMem, objGet_objSet_self]
      · exact ⟨_, rfl, by simp [objMem, objGet_objSet_self]⟩
  | null => simp [ensurePlannerField, pyContains] at h
  | bool b => simp [ensurePlannerField, pyContains] at h
  | num n => simp [ensurePlannerField, pyContains] at h
  | str s =>
    simp only [ensurePlannerField, pyContains, except_bind_ok] at h
    cases hMem : strIn "planner" s with
    | true => simp [hMem, pyGetItem] at h
    | false => simp [hMem, pySetItem] at h
  | arr xs =>
    simp only [ensurePlannerField, pyContains, except_bind_ok] at h
    cases hMem : xs.any (fun x => jEq x (J.str "planner")) with
    | true => simp [hMem, pyGetItem] at h
    | false => simp [hMem, pySetItem] at h

/-- A dict whose `planner` value already answers `true` to the
`"requirements" in ...` test is a fixed point of the "Ensure planner
requirements" block. -/
theorem stepPlanner_fix {q v : J} (h1 : isObj q = true)
    (h2 : planField q "planner" = some v) (h3 : pyContains v "requirements" = .ok true) :
    ensurePlannerField q = .ok q := by
  cases q with
  | obj kvs =>
    simp only [planField] at h2
    have hMem : objMem kvs "planner" = true := by simp [objMem, h2]
    have e1 : pyContains (J.obj kvs) "planner" = .ok (objMem kvs "planner") := rfl
    have e2 : pyGetItem (J.obj kvs) "planner" = .ok v := by simp [pyGetItem, h2]
    simp only [ensurePlannerField]
    rw [e1, hMem]
    simp [e2, h3]
  | null => simp [isObj] at h1
  | bool b => simp [isObj] at h1
  | num n => simp [isObj] at h1
  | str s => simp [isObj] at h1
  | arr xs => simp [isObj] at h1

/-- The three registered template domains, with their template values. -/
theorem domainTemplates_cases {d : String} (h : objMem domainTemplates d = true) :
    (d = "marketplace" ∧ objGet domainTemplates d = some (J.obj marketplaceTemplate)) ∨
    (d = "dashboard" ∧ objGet domainTemplates d = some (J.obj dashboardTemplate)) ∨
    (d = "social" ∧ objGet domainTemplates d = some (J.obj socialTemplate)) := by
  by_cases h1 : d = "marketplace"
  · subst h1; exact Or.inl ⟨rfl, rfl⟩
  by_cases h2 : d = "dashboard"
  · subst h2; exact Or.inr (Or.inl ⟨rfl, rfl⟩)
  by_cases h3 : d = "social"
  · subst h3; exact Or.inr (Or.inr ⟨rfl, rfl⟩)
  exfalso
  simp [domainTemplates, objMem, objGet, Ne.symm h1, Ne.symm h2, Ne.symm h3] at h

/-- Success description of the "Ensure coder file_structure" block. -/
theorem stepCoder_post {d : String} {p q : J} (h : ensureCoderField d p = .ok q) :
    isObj q = true ∧
    (∀ k, k ≠ "coder" → planField q k = planField p k) ∧
    ∃ v, planField q "coder" = some v ∧
      (∃ b, pyContains v "file_structure" = .ok b ∧
        (b = true ∨ objMem domainTemplates d = false)) ∧
      (planField p "coder" = some v ∨
        (planField p "coder" = none ∧ objMem domainTemplates d = false ∧ v = J.obj []) ∨
        (∃ fs, templateEntry d "file_structure" = some fs ∧
          ((planField p "coder" = none ∧ v = J.obj [("file_structure", fs)]) ∨
           (∃ kvw, planField p "coder" = some (J.obj kvw) ∧
             objMem kvw "file_structure" = false ∧
             v = J.obj (objSet kvw "file_structure" fs))))) := by
  cases p with
  | obj kvs =>
    simp only [ensureCoderField, pyContains, except_bind_ok] at h
    cases hMem : objMem kvs "coder" with
    | true =>
      obtain ⟨w, hw⟩ := objMem_some hMem
      simp only [hMem, if_true, except_pure_eq, except_bind_ok, pyGetItem, hw] at h
      cases w with
      | obj kvw =>
        simp only [pyContains, except_bind_ok] at h
        cases hfs : objMem kvw "file_structure" with
        | true =>
          simp only [hfs, Bool.not_true, Bool.false_and, Bool.false_eq_true, if_false,
            except_pure_eq, Except.ok.injEq] at h
          subst h
          exact ⟨rfl, fun k _ => rfl, J.obj kvw, by simp [planField, hw],
            ⟨true, by simp [pyContains, hfs], Or.inl rfl⟩,
            Or.inl (by simp [planField, hw])⟩
        | false =>
          simp only [hfs, Bool.not_false, Bool.true_and] at h
          cases hm2 : objMem domainTemplates d with
          | false =>
            simp only [hm2, Bool.false_eq_true, if_false, except_pure_eq,
              Except.ok.injEq] at h
            subst h
            exact ⟨rfl, fun k _ => rfl, J.obj kvw, by simp [planField, hw],
              ⟨false, by simp [pyContains, hfs], Or.inr rfl⟩,
              Or.inl (by simp [planField, hw])⟩
          | true =>
            obtain ⟨t, ht⟩ := objMem_some hm2
            simp only [hm2, if_true, pyGetItem, ht, except_bind_ok] at h
            cases t with
            | obj kvt =>
              cases hfse : objGet kvt "file_structure" with
              | none => simp [hfse] at h
              | some fs =>
                simp only [hfse, except_bind_ok, hw, pySetItem, Except.ok.injEq] at h
                subst h
                refine ⟨rfl, ?_, J.obj (objSet kvw "file_structure" fs),
                  by simp [planField, objGet_objSet_self],
                  ⟨true, by simp [pyContains, objMem, objGet_objSet_self], Or.inl rfl⟩,
                  Or.inr (Or.inr ⟨fs, ?_,
                    Or.inr ⟨kvw, by simp [planField, hw], hfs, rfl⟩⟩)⟩
                · intro k hk
                  simp [planField, objGet_objSet_ne _ _ _ _ hk]
                · simp [templateEntry, ht, planField, hfse]
            | null => simp at h
            | bool b => simp at h
            | num n => simp at h
            | str s => simp at h
            | arr xs => simp at h
      | arr xs =>
        simp only [pyContains, except_bind_ok] at h
        cases hfs : xs.any (fun x => jEq x (J.str "file_structure")) with
        | true =>
          simp only [hfs, Bool.not_true, Bool.false_and, Bool.false_eq_true, if_false,
            except_pure_eq, Except.ok.injEq] at h
          subst h
          exact ⟨rfl, fun k _ => rfl, J.arr xs, by simp [planField, hw],
            ⟨true, by simp [pyContains, hfs], Or.inl rfl⟩,
            Or.inl (by simp [planField, hw])⟩
        | false =>
          simp only [hfs, Bool.not_false, Bool.true_and] at h
          cases hm2 : objMem domainTemplates d with
          | false =>
            simp only [hm2, Bool.false_eq_true, if_false, except_pure_eq,
              Except.ok.injEq] at h
            subst h
            exact ⟨rfl, fun k _ => rfl, J.arr xs, by simp [planField, hw],
              ⟨false, by simp [pyContains, hfs], Or.inr rfl⟩,
              Or.inl (by simp [planField, hw])⟩
          | true =>
            obtain ⟨t, ht⟩ := objMem_some hm2
            simp only [hm2, if_true, pyGetItem, ht, except_bind_ok] at h
            cases t with
            | obj kvt =>
              cases hfse : objGet kvt "file_structure" with
              | none => simp [hfse] at h
              | some fs => simp [hfse, hw, pySetItem] at h
            | null => simp at h
            | bool b => simp at h
            | num n => simp at h
            | str s => simp at h
            | arr ys => simp at h
      | str s =>
        simp only [pyContains, except_bind_ok] at h
        cases hfs : strIn "file_structure" s with
        | true =>
          simp only [hfs, Bool.not_true, Bool.false_and, Bool.false_eq_true, if_false,
            except_pure_eq, Except.ok.injEq] at h
          subst h
          exact ⟨rfl, fun k _ => rfl, J.str s, by simp [planField, hw],
            ⟨true, by simp [pyContains, hfs], Or.inl rfl⟩,
            Or.inl (by simp [planField, hw])⟩
        | false =>
          simp only [hfs, Bool.not_false, Bool.true_and] at h
          cases hm2 : objMem domainTemplates d with
          | false =>
            simp only [hm2, Bool.false_eq_true, if_false, except_pure_eq,
              Except.ok.injEq] at h
            subst h
            exact ⟨rfl, fun k _ => rfl, J.str s, by simp [planField, hw],
              ⟨false, by simp [pyContains, hfs], Or.inr rfl⟩,
              Or.inl (by simp [planField, hw])⟩
          | true =>
            obtain ⟨t, ht⟩ := objMem_some hm2
            simp only [hm2, if_true, pyGetItem, ht, except_bind_ok] at h
            cases t with
            | obj kvt =>
              cases hfse : objGet kvt "file_structure" with
              | none => simp [hfse] at h
              | some fs => simp [hfse, hw, pySetItem] at h
            | null => simp at h
            | bool b => simp at h
            | num n => simp at h
            | str s2 => simp at h
            | arr ys => simp at h
      | null => simp [pyContains] at h
      | bool b => simp [pyContains] at h
      | num n => simp [pyContains] at h
    | false =>
      have hg := objMem_none hMem
      simp only [hMem] at h
      simp only [Bool.false_eq_true, if_false, pySetItem, except_bind_ok, pyGetItem,
        objGet_objSet_self, pyContains] at h
      simp only [show objMem ([] : List (String × J)) "file_structure" = false from rfl,
        Bool.not_false, Bool.true_and] at h
      cases hm2 : objMem domainTemplates d with
      | false =>
        simp only [hm2, Bool.false_eq_true, if_false, except_pure_eq,
          Except.ok.injEq] at h
        subst h
        refine ⟨rfl, ?_, J.obj [], by simp [planField, objGet_objSet_self], ?_, ?_⟩
        · intro k hk
          simp [planField, objGet_objSet_ne _ _ _ _ hk]
        · exact ⟨false, by simp [pyContains, objMem, objGet], Or.inr rfl⟩
        · exact Or.inr (Or.inl ⟨by simp [planField, hg], rfl, rfl⟩)
      | true =>
        obtain ⟨t, ht⟩ := objMem_some hm2
        simp only [hm2, if_true, pyGetItem, ht, except_bind_ok] at h
        cases t with
        | obj kvt =>
          cases hfse : objGet kvt "file_structure" with
          | none => simp [hfse] at h
          | some fs =>
            simp only [hfse, except_bind_ok, objGet_objSet_self, pySetItem,
              Except.ok.injEq] at h
            subst h
            refine ⟨rfl, ?_, J.obj (objSet [] "file_structure" fs),
              by simp [planField, objGet_objSet_self], ?_, ?_⟩
            · intro k hk
              simp [planField, objGet_objSet_ne _ _ _ _ hk]
            · exact ⟨true, by simp [pyContains, objMem, objGet_objSet_self], Or.inl rfl⟩
            · refine Or.inr (Or.inr ⟨fs, by simp [templateEntry, ht, planField, hfse],
                Or.inl ⟨by simp [planField, hg], by simp [objSet]⟩⟩)
        | null => simp at h
        | bool b => simp at h
        | num n => simp at h
        | str s => simp at h
        | arr xs => simp at h
  | null => simp [ensureCoderField, pyContains] at h
  | bool b => simp [ensureCoderField, pyContains] at h
  | num n => simp [ensureCoderField, pyContains] at h
  | str s =>
    simp only [ensureCoderField, pyContains, except_bind_ok] at h
    cases hMem : strIn "coder" s with
    | true => simp [hMem, pyGetItem] at h
    | false => simp [hMem, pySetItem] at h
  | arr xs =>
    simp only [ensureCoderField, pyContains, except_bind_ok] at h
    cases hMem : xs.any (fun x => jEq x (J.str "coder")) with
    | true => simp [hMem, pyGetItem] at h
    | false => simp [hMem, pySetItem] at h

/-- A dict whose `coder` value already answers `b` to the
`"file_structure" in ...` test, where `b` is `true` or the domain has no
template, is a fixed point of the "Ensure coder file_structure" block. -/
theorem stepCoder_fix {d : String} {q v : J} {b : Bool} (h1 : isObj q = true)
    (h2 : planField q "coder" = some v) (h3 : pyContains v "file_structure" = .ok b)
    (h4 : b = true ∨ objMem domainTemplates d = false) :
    ensureCoderField d q = .ok q := by
  cases q with
  | obj kvs =>
    simp only [planField] at h2
    have hMem : objMem kvs "coder" = true := by simp [objMem, h2]
    have e1 : pyContains (J.obj kvs) "coder" = .ok (objMem kvs "coder") := rfl
    have e2 : pyGetItem (J.obj kvs) "coder" = .ok v := by simp [pyGetItem, h2]
    simp only [ensureCoderField]
    rw [e1, hMem]
    rcases h4 with h4 | h4
    · subst h4
      simp [e2, h3]
    · simp [e2, h3, h4]
  | null => simp [isObj] at h1
  | bool b2 => simp [isObj] at h1
  | num n => simp [isObj] at h1
  | str s => simp [isObj] at h1
  | arr xs => simp [isObj] at h1

/-- Success description of the "Ensure designer pages" block. -/
theorem stepDesigner_post {d : String} {p q : J} (h : ensureDesignerField d p = .ok q) :
    isObj q = true ∧
    (∀ k, k ≠ "designer" → planField q k = planField p k) ∧
    ∃ v, planField q "designer" = some v ∧
      (∃ b, pyContains v "pages" = .ok b ∧
        (b = true ∨ objMem domainTemplates d = false)) ∧
      (planField p "designer" = some v ∨
        (planField p "designer" = none ∧ objMem domainTemplates d = false ∧ v = J.obj []) ∨
        (∃ fs, templateEntry d "pages" = some fs ∧
          ((planField p "designer" = none ∧ v = J.obj [("pages", fs)]) ∨
           (∃ kvw, planField p "designer" = some (J.obj kvw) ∧
             objMem kvw "pages" = false ∧
             v = J.obj (objSet kvw "pages" fs))))) := by
  cases p with
  | obj kvs =>
    simp only [ensureDesignerField, pyContains, except_bind_ok] at h
    cases hMem : objMem kvs "designer" with
    | true =>
      obtain ⟨w, hw⟩ := objMem_some hMem
      simp only [hMem, if_true, except_pure_eq, except_bind_ok, pyGetItem, hw] at h
      cases w with
      | obj kvw =>
        simp only [pyContains, except_bind_ok] at h
        cases hfs : objMem kvw "pages" with
        | true =>
          simp only [hfs, Bool.not_true, Bool.false_and, Bool.false_eq_true, if_false,
            except_pure_eq, Except.ok.injEq] at h
          subst h
          exact ⟨rfl, fun k _ => rfl, J.obj kvw, by simp [planField, hw],
            ⟨true, by simp [pyContains, hfs], Or.inl rfl⟩,
            Or.inl (by simp [planField, hw])⟩
        | false =>
          simp only [hfs, Bool.not_false, Bool.true_and] at h
          cases hm2 : objMem domainTemplates d with
          | false =>
            simp only [hm2, Bool.false_eq_true, if_false, except_pure_eq,
              Except.ok.injEq] at h
            subst h
            exact ⟨rfl, fun k _ => rfl, J.obj kvw, by simp [planField, hw],
              ⟨false, by simp [pyContains, hfs], Or.inr rfl⟩,
              Or.inl (by simp [planField, hw])⟩
          | true =>
            obtain ⟨t, ht⟩ := objMem_some hm2
            simp only [hm2, if_true, pyGetItem, ht, except_bind_ok] at h
            cases t with
            | obj kvt =>
              cases hfse : objGet kvt "pages" with
              | none => simp [hfse] at h
              | some fs =>
                simp only [hfse, except_bind_ok, hw, pySetItem, Except.ok.injEq] at h
                subst h
                refine ⟨rfl, ?_, J.obj (objSet kvw "pages" fs),
                  by simp [planField, objGet_objSet_self],
                  ⟨true, by simp [pyContains, objMem, objGet_objSet_self], Or.inl rfl⟩,
                  Or.inr (Or.inr ⟨fs, ?_,
                    Or.inr ⟨kvw, by simp [planField, hw], hfs, rfl⟩⟩)⟩
                · intro k hk
                  simp [planField, objGet_objSet_ne _ _ _ _ hk]
                · simp [templateEntry, ht, planField, hfse]
            | null => simp at h
            | bool b => simp at h
            | num n => simp at h
            | str s => simp at h
            | arr xs => simp at h
      | arr xs =>
        simp only [pyContains, except_bind_ok] at h
        cases hfs : xs.any (fun x => jEq x (J.str "pages")) with
        | true =>
          simp only [hfs, Bool.not_true, Bool.false_and, Bool.false_eq_true, if_false,
            except_pure_eq, Except.ok.injEq] at h
          subst h
          exact ⟨rfl, fun k _ => rfl, J.arr xs, by simp [planField, hw],
            ⟨true, by simp [pyContains, hfs], Or.inl rfl⟩,
            Or.inl (by simp [planField, hw])⟩
        | false =>
          simp only [hfs, Bool.not_false, Bool.true_and] at h
          cases hm2 : objMem domainTemplates d with
          | false =>
            simp only [hm2, Bool.false_eq_true, if_false, except_pure_eq,
              Except.ok.injEq] at h
            subst h
            exact ⟨rfl, fun k _ => rfl, J.arr xs, by simp [planField, hw],
              ⟨false, by simp [pyContains, hfs], Or.inr rfl⟩,
              Or.inl (by simp [planField, hw])⟩
          | true =>
            obtain ⟨t, ht⟩ := objMem_some hm2
            simp only [hm2, if_true, pyGetItem, ht, except_bind_ok] at h
            cases t with
            | obj kvt =>
              cases hfse : objGet kvt "pages" with
              | none => simp [hfse] at h
              | some fs => simp [hfse, hw, pySetItem] at h
            | null => simp at h
            | bool b => simp at h
            | num n => simp at h
            | str s => simp at h
            | arr ys => simp at h
      | str s =>
        simp only [pyContains, except_bind_ok] at h
        cases hfs : strIn "pages" s with
        | true =>
          simp only [hfs, Bool.not_true, Bool.false_and, Bool.false_eq_true, if_false,
            except_pure_eq, Except.ok.injEq] at h
          subst h
          exact ⟨rfl, fun k _ => rfl, J.str s, by simp [planField, hw],
            ⟨true, by simp [pyContains, hfs], Or.inl rfl⟩,
            Or.inl (by simp [planField, hw])⟩
        | false =>
          simp only [hfs, Bool.not_false, Bool.true_and] at h
          cases hm2 : objMem domainTemplates d with
          | false =>
            simp only [hm2, Bool.false_eq_true, if_false, except_pure_eq,
              Except.ok.injEq] at h
            subst h
            exact ⟨rfl, fun k _ => rfl, J.str s, by simp [planField, hw],
              ⟨false, by simp [pyContains, hfs], Or.inr rfl⟩,
              Or.inl (by simp [planField, hw])⟩
          | true =>
            obtain ⟨t, ht⟩ := objMem_some hm2
            simp only [hm2, if_true, pyGetItem, ht, except_bind_ok] at h
            cases t with
            | obj kvt =>
              cases hfse : objGet kvt "pages" with
              | none => simp [hfse] at h
              | some fs => simp [hfse, hw, pySetItem] at h
            | null => simp at h
            | bool b => simp at h
            | num n => simp at h
            | str s2 => simp at h
            | arr ys => simp at h
      | null => simp [pyContains] at h
      | bool b => simp [pyContains] at h
      | num n => simp [pyContains] at h
    | false =>
      have hg := objMem_none hMem
      simp only [hMem] at h
      simp only [Bool.false_eq_true, if_false, pySetItem, except_bind_ok, pyGetItem,
        objGet_objSet_self, pyContains] at h
      simp only [show objMem ([] : List (String × J)) "pages" = false from rfl,
        Bool.not_false, Bool.true_and] at h
      cases hm2 : objMem domainTemplates d with
      | false =>
        simp only [hm2, Bool.false_eq_true, if_false, except_pure_eq,
          Except.ok.injEq] at h
        subst h
        refine ⟨rfl, ?_, J.obj [], by simp [planField, objGet_objSet_self], ?_, ?_⟩
        · intro k hk
          simp [planField, objGet_objSet_ne _ _ _ _ hk]
        · exact ⟨false, by simp [pyContains, objMem, objGet], Or.inr rfl⟩
        · exact Or.inr (Or.inl ⟨by simp [planField, hg], rfl, rfl⟩)
      | true =>
        obtain ⟨t, ht⟩ := objMem_some hm2
        simp only [hm2, if_true, pyGetItem, ht, except_bind_ok] at h
        cases t with
        | obj kvt =>
          cases hfse : objGet kvt "pages" with
          | none => simp [hfse] at h
          | some fs =>
            simp only [hfse, except_bind_ok, objGet_objSet_self, pySetItem,
              Except.ok.injEq] at h
            subst h
            refine ⟨rfl, ?_, J.obj (objSet [] "pages" fs),
              by simp [planField, objGet_objSet_self], ?_, ?_⟩
            · intro k hk
              simp [planField, objGet_objSet_ne _ _ _ _ hk]
            · exact ⟨true, by simp [pyContains, objMem, objGet_objSet_self], Or.inl rfl⟩
            · refine Or.inr (Or.inr ⟨fs, by simp [templateEntry, ht, planField, hfse],
                Or.inl ⟨by simp [planField, hg], by simp [objSet]⟩⟩)
        | null => simp at h
        | bool b => simp at h
        | num n => simp at h
        | str s => simp at h
        | arr xs => simp at h
  | null => simp [ensureDesignerField, pyContains] at h
  | bool b => simp [ensureDesignerField, pyContains] at h
  | num n => simp [ensureDesignerField, pyContains] at h
  | str s =>
    simp only [ensureDesignerField, pyContains, except_bind_ok] at h
    cases hMem : strIn "designer" s with
    | true => simp [hMem, pyGetItem] at h
    | false => simp [hMem, pySetItem] at h
  | arr xs =>
    simp only [ensureDesignerField, pyContains, except_bind_ok] at h
    cases hMem : xs.any (fun x => jEq x (J.str "designer")) with
    | true => simp [hMem, pyGetItem] at h
    | false => simp [hMem, pySetItem] at h

/-- A dict whose `designer` value already answers `b` to the
`"pages" in ...` test, where `b` is `true` or the domain has no
template, is a fixed point of the "Ensure designer pages" block. -/
theorem stepDesigner_fix {d : String} {q v : J} {b : Bool} (h1 : isObj q = true)
    (h2 : planField q "designer" = some v) (h3 : pyContains v "pages" = .ok b)
    (h4 : b = true ∨ objMem domainTemplates d = false) :
    ensureDesignerField d q = .ok q := by
  cases q with
  | obj kvs =>
    simp only [planField] at h2
    have hMem : objMem kvs "designer" = true := by simp [objMem, h2]
    have e1 : pyContains (J.obj kvs) "designer" = .ok (objMem kvs "designer") := rfl
    have e2 : pyGetItem (J.obj kvs) "designer" = .ok v := by simp [pyGetItem, h2]
    simp only [ensureDesignerField]
    rw [e1, hMem]
    rcases h4 with h4 | h4
    · subst h4
      simp [e2, h3]
    · simp [e2, h3, h4]
  | null => simp [isObj] at h1
  | bool b2 => simp [isObj] at h1
  | num n => simp [isObj] at h1
  | str s => simp [isObj] at h1
  | arr xs => simp [isObj] at h1

theorem templateEntry_some {d k : String} {v : J} (h : templateEntry d k = some v) :
    ∃ kvt, objGet domainTemplates d = some (J.obj kvt) ∧ objGet kvt k = some v := by
  unfold templateEntry at h
  cases hg : objGet domainTemplates d with
  | none => rw [hg] at h; simp at h
  | some t =>
    rw [hg] at h
    cases t with
    | obj kvt => exact ⟨kvt, rfl, h⟩
    | null => simp [planField] at h
    | bool b => simp [planField] at h
    | num n => simp [planField] at h
    | str s => simp [planField] at h
    | arr xs => simp [planField] at h

/-- Every registered template has a `pages` entry. -/
theorem templateEntry_pages {d : String} (h : objMem domainTemplates d = true) :
    ∃ pg, templateEntry d "pages" = some pg := by
  rcases domainTemplates_cases h with ⟨hd, he⟩ | ⟨hd, he⟩ | ⟨hd, he⟩ <;> subst hd
  · exact ⟨mktPages, rfl⟩
  · exact ⟨dashPages, rfl⟩
  · exact ⟨socPages, rfl⟩

/-- The only registered template with a `file_structure` entry is
`marketplace`. -/
theorem templateEntry_file_structure {d : String} (h : objMem domainTemplates d = true)
    (hd1 : d ≠ "dashboard") (hd2 : d ≠ "social") :
    templateEntry d "file_structure" = some mktFileStructure := by
  rcases domainTemplates_cases h with ⟨hd, he⟩ | ⟨hd, he⟩ | ⟨hd, he⟩
  · subst hd; rfl
  · exact absurd hd hd1
  · exact absurd hd hd2

/-- The "Ensure planner requirements" block succeeds on any dict whose
`planner` entry, if present, is a dict. -/
theorem stepPlanner_ok {kvs : List (String × J)}
    (hw : wfObjField kvs "planner" = true) :
    ∃ q, ensurePlannerField (J.obj kvs) = .ok q := by
  have e1 : pyContains (J.obj kvs) "planner" = .ok (objMem kvs "planner") := rfl
  cases hg : objGet kvs "planner" with
  | none =>
    have hMem : objMem kvs "planner" = false := by simp [objMem, hg]
    exact ⟨_, by
      unfold ensurePlannerField
      rw [e1, hMem]
      simp [pySetItem, pyGetItem, objGet_objSet_self, pyContains, objMem, objGet]
      rfl⟩
  | some w =>
    have hMem : objMem kvs "planner" = true := by simp [objMem, hg]
    cases w with
    | obj kvp =>
      have e2 : pyGetItem (J.obj kvs) "planner" = .ok (J.obj kvp) := by
        simp [pyGetItem, hg]
      cases hr : objMem kvp "requirements" with
      | true =>
        refine ⟨J.obj kvs, ?_⟩
        unfold ensurePlannerField
        rw [e1, hMem]
        simp [e2, pyContains, hr]
      | false =>
        exact ⟨_, by
          unfold ensurePlannerField
          rw [e1, hMem]
          simp [e2, pyContains, hr, pySetItem]
          rfl⟩
    | null => simp [wfObjField, hg] at hw
    | bool b => simp [wfObjField, hg] at hw
    | num n => simp [wfObjField, hg] at hw
    | str s => simp [wfObjField, hg] at hw
    | arr xs => simp [wfObjField, hg] at hw

/-- The "Ensure coder file_structure" block succeeds on any dict whose
`coder` entry, if present, is a dict — provided the completion path is not
the missing-template-entry one. -/
theorem stepCoder_ok {d : String} {kvs : List (String × J)}
    (hw : wfObjField kvs "coder" = true)
    (hok : planHas2 (J.obj kvs) "coder" "file_structure" = true ∨
      objMem domainTemplates d = false ∨
      ∃ fs, templateEntry d "file_structure" = some fs) :
    ∃ q, ensureCoderField d (J.obj kvs) = .ok q := by
  have e1 : pyContains (J.obj kvs) "coder" = .ok (objMem kvs "coder") := rfl
  cases hg : objGet kvs "coder" with
  | none =>
    have hMem : objMem kvs "coder" = false := by simp [objMem, hg]
    have habs : planHas2 (J.obj kvs) "coder" "file_structure" = false := by
      simp [planHas2, planPath2, planField, hg]
    cases hm : objMem domainTemplates d with
    | false =>
      exact ⟨_, by
        unfold ensureCoderField
        rw [e1, hMem]
        simp [pySetItem, pyGetItem, objGet_objSet_self, pyContains, hm,
          show objMem ([] : List (String × J)) "file_structure" = false from rfl]
        rfl⟩
    | true =>
      rcases hok with hok | hok | ⟨fs, hok⟩
      · rw [habs] at hok; exact absurd hok (by simp)
      · rw [hm] at hok; exact absurd hok (by simp)
      · obtain ⟨kvt, ht, htfs⟩ := templateEntry_some hok
        exact ⟨_, by
          unfold ensureCoderField
          rw [e1, hMem]
          simp [pySetItem, pyGetItem, objGet_objSet_self, pyContains, hm, ht, htfs,
            show objMem ([] : List (String × J)) "file_structure" = false from rfl]
          rfl⟩
  | some w =>
    have hMem : objMem kvs "coder" = true := by simp [objMem, hg]
    cases w with
    | obj kvw =>
      have e2 : pyGetItem (J.obj kvs) "coder" = .ok (J.obj kvw) := by
        simp [pyGetItem, hg]
      cases hr : objMem kvw "file_structure" with
      | true =>
        refine ⟨J.obj kvs, ?_⟩
        unfold ensureCoderField
        rw [e1, hMem]
        simp [e2, pyContains, hr]
      | false =>
        have habs : planHas2 (J.obj kvs) "coder" "file_structure" = false := by
          simp [planHas2, planPath2, planField, hg, objMem] at hr ⊢
          exact hr
        cases hm : objMem domainTemplates d with
        | false =>
          refine ⟨J.obj kvs, ?_⟩
          unfold ensureCoderField
          rw [e1, hMem]
          simp [e2, pyContains, hr, hm]
        | true =>
          rcases hok with hok | hok | ⟨fs, hok⟩
          · rw [habs] at hok; exact absurd hok (by simp)
          · rw [hm] at hok; exact absurd hok (by simp)
          · obtain ⟨kvt, ht, htfs⟩ := templateEntry_some hok
            exact ⟨_, by
              unfold ensureCoderField
              rw [e1, hMem]
              simp [pyGetItem, pySetItem, pyContains, hg, hr, hm, ht, htfs]
              rfl⟩
    | null => simp [wfObjField, hg] at hw
    | bool b => simp [wfObjField, hg] at hw
    | num n => simp [wfObjField, hg] at hw
    | str s => simp [wfObjField, hg] at hw
    | arr xs => simp [wfObjField, hg] at hw

/-- The "Ensure designer pages" block succeeds on any dict whose `designer`
entry, if present, is a dict (every registered template has a `pages`
entry). -/
theorem stepDesigner_ok (d : String) {kvs : List (String × J)}
    (hw : wfObjField kvs "designer" = true) :
    ∃ q, ensureDesignerField d (J.obj kvs) = .ok q := by
  have e1 : pyContains (J.obj kvs) "designer" = .ok (objMem kvs "designer") := rfl
  cases hg : objGet kvs "designer" with
  | none =>
    have hMem : objMem kvs "designer" = false := by simp [objMem, hg]
    cases hm : objMem domainTemplates d with
    | false =>
      exact ⟨_, by
        unfold ensureDesignerField
        rw [e1, hMem]
        simp [pySetItem, pyGetItem, objGet_objSet_self, pyContains, hm,
          show objMem ([] : List (String × J)) "pages" = false from rfl]
        rfl⟩
    | true =>
      obtain ⟨pg, hpg⟩ := templateEntry_pages hm
      obtain ⟨kvt, ht, htpg⟩ := templateEntry_some hpg
      exact ⟨_, by
        unfold ensureDesignerField
        rw [e1, hMem]
        simp [pySetItem, pyGetItem, objGet_objSet_self, pyContains, hm, ht, htpg,
          show objMem ([] : List (String × J)) "pages" = false from rfl]
        rfl⟩
  | some w =>
    have hMem : objMem kvs "designer" = true := by simp [objMem, hg]
    cases w with
    | obj kvw =>
      have e2 : pyGetItem (J.obj kvs) "designer" = .ok (J.obj kvw) := by
        simp [pyGetItem, hg]
      cases hr : objMem kvw "pages" with
      | true =>
        refine ⟨J.obj kvs, ?_⟩
        unfold ensureDesignerField
        rw [e1, hMem]
        simp [e2, pyContains, hr]
      | false =>
        cases hm : objMem domainTemplates d with
        | false =>
          refine ⟨J.obj kvs, ?_⟩
          unfold ensureDesignerField
          rw [e1, hMem]
          simp [e2, pyContains, hr, hm]
        | true =>
          obtain ⟨pg, hpg⟩ := templateEntry_pages hm
          obtain ⟨kvt, ht, htpg⟩ := templateEntry_some hpg
          exact ⟨_, by
            unfold ensureDesignerField
            rw [e1, hMem]
            simp [pyGetItem, pySetItem, pyContains, hg, hr, hm, ht, htpg]
            rfl⟩
    | null => simp [wfObjField, hg] at hw
    | bool b => simp [wfObjField, hg] at hw
    | num n => simp [wfObjField, hg] at hw
    | str s => simp [wfObjField, hg] at hw
    | arr xs => simp [wfObjField, hg] at hw

/-- The "Ensure coder file_structure" block raises
`KeyError: file_structure` when the key must be completed but the domain's
template lacks a `file_structure` entry. -/
theorem stepCoder_error {d : String} {kvs kvt : List (String × J)}
    (he : objGet domainTemplates d = some (J.obj kvt))
    (hT : objGet kvt "file_structure" = none)
    (hw : wfObjField kvs "coder" = true)
    (habs : planHas2 (J.obj kvs) "coder" "file_structure" = false) :
    ensureCoderField d (J.obj kvs) = .error (.keyError "file_structure") := by
  have hmem : objMem domainTemplates d = true := by simp [objMem, he]
  have e1 : pyContains (J.obj kvs) "coder" = .ok (objMem kvs "coder") := rfl
  cases hg : objGet kvs "coder" with
  | none =>
    have hMem : objMem kvs "coder" = false := by simp [objMem, hg]
    unfold ensureCoderField
    rw [e1, hMem]
    simp [pySetItem, pyGetItem, objGet_objSet_self, pyContains, hmem, he, hT,
      show objMem ([] : List (String × J)) "file_structure" = false from rfl]
  | some w =>
    have hMem : objMem kvs "coder" = true := by simp [objMem, hg]
    cases w with
    | obj kvw =>
      have hr : objMem kvw "file_structure" = false := by
        simpa [planHas2, planPath2, planField, hg, objMem] using habs
      have e2 : pyGetItem (J.obj kvs) "coder" = .ok (J.obj kvw) := by
        simp [pyGetItem, hg]
      unfold ensureCoderField
      rw [e1, hMem]
      simp [pyGetItem, pySetItem, pyContains, hg, hr, hmem, he, hT]
    | null => simp [wfObjField, hg] at hw
    | bool b => simp [wfObjField, hg] at hw
    | num n => simp [wfObjField, hg] at hw
    | str s => simp [wfObjField, hg] at hw
    | arr xs => simp [wfObjField, hg] at hw

theorem isObj_obj {q : J} (h : isObj q = true) : ∃ kvs, q = J.obj kvs := by
  cases q with
  | obj kvs => exact ⟨kvs, rfl⟩
  | null => simp [isObj] at h
  | bool b => simp [isObj] at h
  | num n => simp [isObj] at h
  | str s => simp [isObj] at h
  | arr xs => simp [isObj] at h

theorem wfObjField_congr {kvs kvs' : List (String × J)} {k : String}
    (h : objGet kvs k = objGet kvs' k) : wfObjField kvs k = wfObjField kvs' k := by
  unfold wfObjField
  rw [h]

theorem templateEntry_none {d k : String} (h : objMem domainTemplates d = false) :
    templateEntry d k = none := by
  unfold templateEntry
  rw [objMem_none h]

theorem wfPlan_parts {p : J} (h : wfPlan p = true) :
    ∃ kvs, p = J.obj kvs ∧ wfObjField kvs "planner" = true ∧
      wfObjField kvs "coder" = true ∧ wfObjField kvs "designer" = true ∧
      (match objGet kvs "planner" with
       | some (J.obj kvp) => wfObjField kvp "requirements"
       | _ => true) = true := by
  cases p with
  | obj kvs =>
    simp only [wfPlan, Bool.and_eq_true] at h
    exact ⟨kvs, rfl, h.1.1.1, h.1.1.2, h.1.2, h.2⟩
  | null => simp [wfPlan] at h
  | bool b => simp [wfPlan] at h
  | num n => simp [wfPlan] at h
  | str s => simp [wfPlan] at h
  | arr xs => simp [wfPlan] at h

/-- Every registered template domain's catalog value is a dict. -/
theorem domainTemplates_obj {d : String} (h : objMem domainTemplates d = true) :
    ∃ kvt, objGet domainTemplates d = some (J.obj kvt) := by
  rcases domainTemplates_cases h with ⟨-, he⟩ | ⟨-, he⟩ | ⟨-, he⟩
  · exact ⟨marketplaceTemplate, he⟩
  · exact ⟨dashboardTemplate, he⟩
  · exact ⟨socialTemplate, he⟩

/-- Behavior of the first enhancement block on a well-formed plan: no-op
when `planner.requirements` is absent, otherwise an overwrite of
`planner.requirements.core_features` with the template's list. -/
theorem enhanceRequirements_wf (kvt : List (String × J)) {kvs : List (String × J)}
    (hw : wfObjField kvs "planner" = true)
    (hreq : (match objGet kvs "planner" with
             | some (J.obj kvp) => wfObjField kvp "requirements"
             | _ => true) = true) :
    (planHas2 (J.obj kvs) "planner" "requirements" = false →
      enhanceRequirements (J.obj kvt) (J.obj kvs) = .ok (J.obj kvs)) ∧
    (∀ cf, objGet kvt "core_features" = some cf →
      planHas2 (J.obj kvs) "planner" "requirements" = true →
      ∃ kvq, enhanceRequirements (J.obj kvt) (J.obj kvs) = .ok (J.obj kvq) ∧
        (∀ k, k ≠ "planner" → objGet kvq k = objGet kvs k) ∧
        planPath3 (J.obj kvq) "planner" "requirements" "core_features" = some cf ∧
        planHas2 (J.obj kvq) "planner" "requirements" = true) := by
  constructor
  · intro hab
    cases hg : objGet kvs "planner" with
    | none =>
      have e0 : pyDictGet (J.obj kvs) "planner" (J.obj []) = .ok (J.obj []) := by
        simp [pyDictGet, hg]
      unfold enhanceRequirements
      rw [e0]
      simp [pyContains, objMem, objGet]
    | some vp =>
      cases vp with
      | obj kvp =>
        have hnone : objGet kvp "requirements" = none :=
          objMem_none (by simpa [planHas2, planPath2, planField, hg, objMem] using hab)
        have e0 : pyDictGet (J.obj kvs) "planner" (J.obj []) = .ok (J.obj kvp) := by
          simp [pyDictGet, hg]
        unfold enhanceRequirements
        rw [e0]
        simp [pyContains, objMem, hnone]
      | null => simp [wfObjField, hg] at hw
      | bool b => simp [wfObjField, hg] at hw
      | num n => simp [wfObjField, hg] at hw
      | str s => simp [wfObjField, hg] at hw
      | arr xs => simp [wfObjField, hg] at hw
  · intro cf hcf hpres
    cases hg : objGet kvs "planner" with
    | none => simp [planHas2, planPath2, planField, hg] at hpres
    | some vp =>
      cases vp with
      | obj kvp =>
        obtain ⟨vr, hvr⟩ := objMem_some
          (show objMem kvp "requirements" = true by
            simpa [planHas2, planPath2, planField, hg, objMem] using hpres)
        have hvro : ∃ kvr, vr = J.obj kvr := by
          rw [hg] at hreq
          cases vr with
          | obj kvr => exact ⟨kvr, rfl⟩
          | null => simp [wfObjField, hvr] at hreq
          | bool b => simp [wfObjField, hvr] at hreq
          | num n => simp [wfObjField, hvr] at hreq
          | str s => simp [wfObjField, hvr] at hreq
          | arr xs => simp [wfObjField, hvr] at hreq
        obtain ⟨kvr, rfl⟩ := hvro
        have e0 : pyDictGet (J.obj kvs) "planner" (J.obj []) = .ok (J.obj kvp) := by
          simp [pyDictGet, hg]
        have hm : objMem kvp "requirements" = true := by simp [objMem, hvr]
        refine ⟨objSet kvs "planner" (J.obj (objSet kvp "requirements"
          (J.obj (objSet kvr "core_features" cf)))), ?_, ?_, ?_, ?_⟩
        · unfold enhanceRequirements
          rw [e0]
          simp [pyContains, hm, pyGetItem, pySetItem, hcf, hg, hvr]
        · intro k hk
          exact objGet_objSet_ne _ _ _ _ hk
        · simp [planPath3, planPath2, planField, objGet_objSet_self]
        · simp [planHas2, planPath2, planField, objGet_objSet_self]
      | null => simp [planHas2, planPath2, planField, hg] at hpres
      | bool b => simp [planHas2, planPath2, planField, hg] at hpres
      | num n => simp [planHas2, planPath2, planField, hg] at hpres
      | str s => simp [planHas2, planPath2, planField, hg] at hpres
      | arr xs => simp [planHas2, planPath2, planField, hg] at hpres

/-- Behavior of the second enhancement block on a well-formed plan: no-op
when `designer.pages` is absent, otherwise an overwrite with the template's
pages. -/
theorem enhancePages_wf (kvt : List (String × J)) {kvs : List (String × J)}
    (hw : wfObjField kvs "designer" = true) :
    (planHas2 (J.obj kvs) "designer" "pages" = false →
      enhancePages (J.obj kvt) (J.obj kvs) = .ok (J.obj kvs)) ∧
    (∀ pg, objGet kvt "pages" = some pg →
      planHas2 (J.obj kvs) "designer" "pages" = true →
      ∃ kvq, enhancePages (J.obj kvt) (J.obj kvs) = .ok (J.obj kvq) ∧
        (∀ k, k ≠ "designer" → objGet kvq k = objGet kvs k) ∧
        planPath2 (J.obj kvq) "designer" "pages" = some pg) := by
  constructor
  · intro hab
    cases hg : objGet kvs "designer" with
    | none =>
      have e0 : pyDictGet (J.obj kvs) "designer" (J.obj []) = .ok (J.obj []) := by
        simp [pyDictGet, hg]
      unfold enhancePages
      rw [e0]
      simp [pyContains, objMem, objGet]
    | some vp =>
      cases vp with
      | obj kvp =>
        have hnone : objGet kvp "pages" = none :=
          objMem_none (by simpa [planHas2, planPath2, planField, hg, objMem] using hab)
        have e0 : pyDictGet (J.obj kvs) "designer" (J.obj []) = .ok (J.obj kvp) := by
          simp [pyDictGet, hg]
        unfold enhancePages
        rw [e0]
        simp [pyContains, objMem, hnone]
      | null => simp [wfObjField, hg] at hw
      | bool b => simp [wfObjField, hg] at hw
      | num n => simp [wfObjField, hg] at hw
      | str s => simp [wfObjField, hg] at hw
      | arr xs => simp [wfObjField, hg] at hw
  · intro pg hpg hpres
    cases hg : objGet kvs "designer" with
    | none => simp [planHas2, planPath2, planField, hg] at hpres
    | some vp =>
      cases vp with
      | obj kvp =>
        have hm : objMem kvp "pages" = true := by
          simpa [planHas2, planPath2, planField, hg, objMem] using hpres
        have e0 : pyDictGet (J.obj kvs) "designer" (J.obj []) = .ok (J.obj kvp) := by
          simp [pyDictGet, hg]
        refine ⟨objSet kvs "designer" (J.obj (objSet kvp "pages" pg)), ?_, ?_, ?_⟩
        · unfold enhancePages
          rw [e0]
          simp [pyContains, hm, pyGetItem, pySetItem, hpg, hg]
        · intro k hk
          exact objGet_objSet_ne _ _ _ _ hk
        · simp [planPath2, planField, objGet_objSet_self]
      | null => simp [planHas2, planPath2, planField, hg] at hpres
      | bool b => simp [planHas2, planPath2, planField, hg] at hpres
      | num n => simp [planHas2, planPath2, planField, hg] at hpres
      | str s => simp [planHas2, planPath2, planField, hg] at hpres
      | arr xs => simp [planHas2, planPath2, planField, hg] at hpres

/-- Behavior of the third enhancement block on a well-formed plan: no-op
when `coder.file_structure` is absent; when it is present, an overwrite with
the template's `file_structure` — or a `KeyError` if the template lacks that
entry. -/
theorem enhanceFileStructure_wf (kvt : List (String × J)) {kvs : List (String × J)}
    (hw : wfObjField kvs "coder" = true) :
    (planHas2 (J.obj kvs) "coder" "file_structure" = false →
      enhanceFileStructure (J.obj kvt) (J.obj kvs) = .ok (J.obj kvs)) ∧
    (∀ fs, objGet kvt "file_structure" = some fs →
      planHas2 (J.obj kvs) "coder" "file_structure" = true →
      ∃ kvq, enhanceFileStructure (J.obj kvt) (J.obj kvs) = .ok (J.obj kvq) ∧
        (∀ k, k ≠ "coder" → objGet kvq k = objGet kvs k) ∧
        planPath2 (J.obj kvq) "coder" "file_structure" = some fs) ∧
    (objGet kvt "file_structure" = none →
      planHas2 (J.obj kvs) "coder" "file_structure" = true →
      enhanceFileStructure (J.obj kvt) (J.obj kvs) =
        .error (.keyError "file_structure")) := by
  refine ⟨?_, ?_, ?_⟩
  · intro hab
    cases hg : objGet kvs "coder" with
    | none =>
      have e0 : pyDictGet (J.obj kvs) "coder" (J.obj []) = .ok (J.obj []) := by
        simp [pyDictGet, hg]
      unfold enhanceFileStructure
      rw [e0]
      simp [pyContains, objMem, objGet]
    | some vp =>
      cases vp with
      | obj kvp =>
        have hnone : objGet kvp "file_structure" = none :=
          objMem_none (by simpa [planHas2, planPath2, planField, hg, objMem] using hab)
        have e0 : pyDictGet (J.obj kvs) "coder" (J.obj []) = .ok (J.obj kvp) := by
          simp [pyDictGet, hg]
        unfold enhanceFileStructure
        rw [e0]
        simp [pyContains, objMem, hnone]
      | null => simp [wfObjField, hg] at hw
      | bool b => simp [wfObjField, hg] at hw
      | num n => simp [wfObjField, hg] at hw
      | str s => simp [wfObjField, hg] at hw
      | arr xs => simp [wfObjField, hg] at hw
  · intro fs hfs hpres
    cases hg : objGet kvs "coder" with
    | none => simp [planHas2, planPath2, planField, hg] at hpres
    | some vp =>
      cases vp with
      | obj kvp =>
        have hm : objMem kvp "file_structure" = true := by
          simpa [planHas2, planPath2, planField, hg, objMem] using hpres
        have e0 : pyDictGet (J.obj kvs) "coder" (J.obj []) = .ok (J.obj kvp) := by
          simp [pyDictGet, hg]
        refine ⟨objSet kvs "coder" (J.obj (objSet kvp "file_structure" fs)), ?_, ?_, ?_⟩
        · unfold enhanceFileStructure
          rw [e0]
          simp [pyContains, hm, pyGetItem, pySetItem, hfs, hg]
        · intro k hk
          exact objGet_objSet_ne _ _ _ _ hk
        · simp [planPath2, planField, objGet_objSet_self]
      | null => simp [planHas2, planPath2, planField, hg] at hpres
      | bool b => simp [planHas2, planPath2, planField, hg] at hpres
      | num n => simp [planHas2, planPath2, planField, hg] at hpres
      | str s => simp [planHas2, planPath2, planField, hg] at hpres
      | arr xs => simp [planHas2, planPath2, planField, hg] at hpres
  · intro hfs hpres
    cases hg : objGet kvs "coder" with
    | none => simp [planHas2, planPath2, planField, hg] at hpres
    | some vp =>
      cases vp with
      | obj kvp =>
        have hm : objMem kvp "file_structure" = true := by
          simpa [planHas2, planPath2, planField, hg, objMem] using hpres
        have e0 : pyDictGet (J.obj kvs) "coder" (J.obj []) = .ok (J.obj kvp) := by
          simp [pyDictGet, hg]
        unfold enhanceFileStructure
        rw [e0]
        simp [pyContains, hm, pyGetItem, hfs]
      | null => simp [planHas2, planPath2, planField, hg] at hpres
      | bool b => simp [planHas2, planPath2, planField, hg] at hpres
      | num n => simp [planHas2, planPath2, planField, hg] at hpres
      | str s => simp [planHas2, planPath2, planField, hg] at hpres
      | arr xs => simp [planHas2, planPath2, planField, hg] at hpres

/-- Behavior of the three-block enhancement chain on a well-formed plan,
for a template with `core_features` and `pages` entries: an exception exactly
when `coder.file_structure` pre-exists and the template has no
`file_structure` entry; otherwise each of the three overwrites happens
exactly when its guard key pre-exists. -/
theorem enhanceChain_wf (kvt : List (String × J)) (cf pg : J)
    {kvs : List (String × J)}
    (hwfP : wfObjField kvs "planner" = true)
    (hwfC : wfObjField kvs "coder" = true)
    (hwfD : wfObjField kvs "designer" = true)
    (hwfR : (match objGet kvs "planner" with
             | some (J.obj kvp) => wfObjField kvp "requirements"
             | _ => true) = true)
    (hcf : objGet kvt "core_features" = some cf)
    (hpg : objGet kvt "pages" = some pg) :
    ((planHas2 (J.obj kvs) "coder" "file_structure" = true ∧
        objGet kvt "file_structure" = none) →
      (enhanceRequirements (J.obj kvt) (J.obj kvs) >>= enhancePages (J.obj kvt) >>=
        enhanceFileStructure (J.obj kvt)) = .error (.keyError "file_structure")) ∧
    (∀ FS : Option J, objGet kvt "file_structure" = FS →
      ¬ (planHas2 (J.obj kvs) "coder" "file_structure" = true ∧ FS = none) →
      ∃ q, (enhanceRequirements (J.obj kvt) (J.obj kvs) >>= enhancePages (J.obj kvt) >>=
            enhanceFileStructure (J.obj kvt)) = .ok q ∧
        (planHas2 (J.obj kvs) "planner" "requirements" = true →
          planPath3 q "planner" "requirements" "core_features" = some cf) ∧
        (planHas2 (J.obj kvs) "planner" "requirements" = false →
          planField q "planner" = planField (J.obj kvs) "planner") ∧
        (planHas2 (J.obj kvs) "designer" "pages" = true →
          planPath2 q "designer" "pages" = some pg) ∧
        (planHas2 (J.obj kvs) "designer" "pages" = false →
          planField q "designer" = planField (J.obj kvs) "designer") ∧
        (planHas2 (J.obj kvs) "coder" "file_structure" = true →
          planPath2 q "coder" "file_structure" = FS) ∧
        (planHas2 (J.obj kvs) "coder" "file_structure" = false →
          planField q "coder" = planField (J.obj kvs) "coder")) := by
  have step1 : ∃ kvq1, enhanceRequirements (J.obj kvt) (J.obj kvs) = .ok (J.obj kvq1) ∧
      (∀ k, k ≠ "planner" → objGet kvq1 k = objGet kvs k) ∧
      (planHas2 (J.obj kvs) "planner" "requirements" = true →
        planPath3 (J.obj kvq1) "planner" "requirements" "core_features" = some cf) ∧
      (planHas2 (J.obj kvs) "planner" "requirements" = false →
        objGet kvq1 "planner" = objGet kvs "planner") := by
    obtain ⟨hAb, hPr⟩ := enhanceRequirements_wf kvt hwfP hwfR
    by_cases hR : planHas2 (J.obj kvs) "planner" "requirements" = true
    · obtain ⟨kvq1, hE, hF, hP3, -⟩ := hPr cf hcf hR
      exact ⟨kvq1, hE, hF, fun _ => hP3, fun hc => absurd hR (by simp [hc])⟩
    · have hR' : planHas2 (J.obj kvs) "planner" "requirements" = false := by
        cases hb : planHas2 (J.obj kvs) "planner" "requirements" with
        | true => exact absurd hb hR
        | false => rfl
      exact ⟨kvs, hAb hR', fun k _ => rfl, fun hc => absurd hc hR, fun _ => rfl⟩
  obtain ⟨kvq1, hE1, hF1, hPos1, hNeg1⟩ := step1
  have hD1 : objGet kvq1 "designer" = objGet kvs "designer" := hF1 _ (by decide)
  have hC1 : objGet kvq1 "coder" = objGet kvs "coder" := hF1 _ (by decide)
  have hwfD1 : wfObjField kvq1 "designer" = true := by
    rw [wfObjField_congr hD1]
    exact hwfD
  have hPgEq : planHas2 (J.obj kvq1) "designer" "pages" =
      planHas2 (J.obj kvs) "designer" "pages" := by
    simp [planHas2, planPath2, planField, hD1]
  have step2 : ∃ kvq2, enhancePages (J.obj kvt) (J.obj kvq1) = .ok (J.obj kvq2) ∧
      (∀ k, k ≠ "designer" → objGet kvq2 k = objGet kvq1 k) ∧
      (planHas2 (J.obj kvs) "designer" "pages" = true →
        planPath2 (J.obj kvq2) "designer" "pages" = some pg) ∧
      (planHas2 (J.obj kvs) "designer" "pages" = false →
        objGet kvq2 "designer" = objGet kvs "designer") := by
    obtain ⟨hAb, hPr⟩ := enhancePages_wf kvt hwfD1
    by_cases hPg : planHas2 (J.obj kvs) "designer" "pages" = true
    · obtain ⟨kvq2, hE, hF, hP2⟩ := hPr pg hpg (by rw [hPgEq]; exact hPg)
      exact ⟨kvq2, hE, hF, fun _ => hP2, fun hc => absurd hPg (by simp [hc])⟩
    · have hPg' : planHas2 (J.obj kvq1) "designer" "pages" = false := by
        rw [hPgEq]
        cases hb : planHas2 (J.obj kvs) "designer" "pages" with
        | true => exact absurd hb hPg
        | false => rfl
      exact ⟨kvq1, hAb hPg', fun k _ => rfl, fun hc => absurd hc hPg, fun _ => hD1⟩
  obtain ⟨kvq2, hE2, hF2, hPos2, hNeg2⟩ := step2
  have hC2 : objGet kvq2 "coder" = objGet kvs "coder" := by
    rw [hF2 _ (by decide)]
    exact hC1
  have hP2keep : objGet kvq2 "planner" = objGet kvq1 "planner" := hF2 _ (by decide)
  have hwfC2 : wfObjField kvq2 "coder" = true := by
    rw [wfObjField_congr hC2]
    exact hwfC
  have hFsEq2 : planHas2 (J.obj kvq2) "coder" "file_structure" =
      planHas2 (J.obj kvs) "coder" "file_structure" := by
    simp [planHas2, planPath2, planField, hC2]
  obtain ⟨hAb3, hPr3, hErr3⟩ := enhanceFileStructure_wf kvt hwfC2
  constructor
  · rintro ⟨hfs, hfse⟩
    rw [hE1]
    simp only [except_bind_ok]
    rw [hE2]
    simp only [except_bind_ok]
    exact hErr3 hfse (by rw [hFsEq2]; exact hfs)
  · intro FS hFS hnot
    by_cases hfs : planHas2 (J.obj kvs) "coder" "file_structure" = true
    · cases FS with
      | none => exact absurd ⟨hfs, rfl⟩ hnot
      | some fs =>
        obtain ⟨kvq3, hE3, hF3, hP3⟩ := hPr3 fs hFS (by rw [hFsEq2]; exact hfs)
        have hpl3 : objGet kvq3 "planner" = objGet kvq1 "planner" := by
          rw [hF3 _ (by decide)]
          exact hP2keep
        have hde3 : objGet kvq3 "designer" = objGet kvq2 "designer" := hF3 _ (by decide)
        refine ⟨J.obj kvq3, ?_, ?_, ?_, ?_, ?_, fun _ => hP3, ?_⟩
        · rw [hE1]
          simp only [except_bind_ok]
          rw [hE2]
          simp only [except_bind_ok]
          exact hE3
        · intro hRt
          have := hPos1 hRt
          simpa [planPath3, planPath2, planField, hpl3] using this
        · intro hRf
          simp only [planField]
          rw [hpl3, hNeg1 hRf]
        · intro hPgt
          have := hPos2 hPgt
          simpa [planPath2, planField, hde3] using this
        · intro hPgf
          simp only [planField]
          rw [hde3, hNeg2 hPgf]
        · intro hc
          exact absurd hfs (by simp [hc])
    · have hfs' : planHas2 (J.obj kvs) "coder" "file_structure" = false := by
        cases hb : planHas2 (J.obj kvs) "coder" "file_structure" with
        | true => exact absurd hb hfs
        | false => rfl
      have hE3 := hAb3 (by rw [hFsEq2]; exact hfs')
      refine ⟨J.obj kvq2, ?_, ?_, ?_, hPos2, ?_, ?_, ?_⟩
      · rw [hE1]
        simp only [except_bind_ok]
        rw [hE2]
        simp only [except_bind_ok]
        exact hE3
      · intro hRt
        have := hPos1 hRt
        simpa [planPath3, planPath2, planField, hP2keep] using this
      · intro hRf
        simp only [planField]
        rw [hP2keep, hNeg1 hRf]
      · intro hPgf
        simp only [planField]
        rw [hNeg2 hPgf]
      · intro hc
        exact absurd hc (by simp [hfs'])
      · intro _
        simp only [planField]
        exact hC2

/-! ## Claim theorems -/

/-- C2: for every outcome of the classification model call, `_detect_domain`
returns a value in `{marketplace, dashboard, social, general}` and never
raises (it is a total function into that set: the raw response is stripped,
lower-cased and checked by exact set membership, and any out-of-set value or
any exception during the call resolves to `general`). -/
theorem detectDomain_mem_validDomains (llmResp : Except PyErr J) :
    detectDomain llmResp = "marketplace" ∨ detectDomain llmResp = "dashboard" ∨
    detectDomain llmResp = "social" ∨ detectDomain llmResp = "general" := by
  unfold detectDomain
  cases llmResp with
  | error e => simp
  | ok resp =>
    cases h : extractRespText resp with
    | error e => simp [h]
    | ok s =>
      simp only [h, except_bind_ok, except_pure_eq]
      by_cases hm : pyLower s ∈ validDomains
      · simp only [if_pos hm]
        simp only [validDomains, List.mem_cons, List.not_mem_nil, or_false] at hm
        rcases hm with h1 | h1 | h1 | h1 <;> simp [h1]
      · simp [if_neg hm]

/-- C1, evaluated at the failing input: when the planning model returns the
valid JSON text `{}` (so the parse succeeds) and the domain is `general`,
the final plan produced by `plan()` has `domain`, `planner`, `coder` and
`designer` present and non-null, but is missing `goal` and `project_type`
entirely — the claimed six-field invariant fails on the direct-parse path. -/
theorem plan_pipeline_parse_path_lacks_goal :
    ∃ p, planPipeline envEmptyObject
        "Build a weather forecast web app using an API." "general" "t0" = .ok p ∧
      planFieldNonNull p "domain" = true ∧ planFieldNonNull p "planner" = true ∧
      planFieldNonNull p "coder" = true ∧ planFieldNonNull p "designer" = true ∧
      planHas p "goal" = false ∧ planHas p "project_type" = false :=
  ⟨_, rfl, rfl, rfl, rfl, rfl, rfl, rfl⟩

/-- C5, evaluated at the failing inputs: for the registered domain tags
`dashboard` and `social`, whose templates define only `core_features` and
`pages`, both `_ensure_critical_fields` (on a plan missing
`coder.file_structure`) and `_create_domain_specific_fallback` raise
`KeyError: file_structure` instead of returning a plan. -/
theorem ensure_and_fallback_raise_for_dashboard_social :
    ensureCriticalFields (J.obj []) "g" "dashboard" = .error (.keyError "file_structure") ∧
    ensureCriticalFields (J.obj []) "g" "social" = .error (.keyError "file_structure") ∧
    createDomainSpecificFallback "g" "dashboard" "t" = .error (.keyError "file_structure") ∧
    createDomainSpecificFallback "g" "social" "t" = .error (.keyError "file_structure") :=
  ⟨rfl, rfl, rfl, rfl⟩

/-- C3 counterexample: a planning-stage model call that raises a generic
invocation error (not a `json.JSONDecodeError` or `KeyError`) propagates out
of `plan()` instead of being routed to the fallback generator — the claim
"never propagates the error to the caller" is false. -/
theorem plan_pipeline_propagates_model_failure :
    planPipeline envModelFailure "g" "general" "t" =
      .error (.other "model invocation failure") := rfl

/-- C3 amended: when decoding of the assigned model output fails with
`json.JSONDecodeError`, `plan()` returns the fallback generator's output
directly (bypassing enhancement and also the field completer) and does not
propagate; but a model-call failure other than `KeyError` propagates to the
caller, and a `KeyError` raised before `output` is assigned makes the
handler itself raise `UnboundLocalError`. -/
theorem plan_pipeline_error_routing (env : PlanEnv) (goal domain now : String) :
    (∀ resp out, env.llmResp = .ok resp → extractRespText resp = .ok out →
      env.loads out = .error .decodeError →
      planPipeline env goal domain now = createDomainSpecificFallback goal domain now) ∧
    (∀ m, env.llmResp = .error (.other m) →
      planPipeline env goal domain now = .error (.other m)) ∧
    (∀ k, env.llmResp = .error (.keyError k) →
      planPipeline env goal domain now = .error .unboundLocal) := by
  refine ⟨?_, ?_, ?_⟩
  · intro resp out h1 h2 h3
    simp [planPipeline, planTryBody, h1, h2, h3, isCaught]
  · intro m h1
    simp [planPipeline, planTryBody, h1, isCaught]
  · intro k h1
    simp [planPipeline, planTryBody, h1, isCaught]

/-- Witness for C3's amended theorem at a concrete run: with unparsable model
output, `plan()` returns exactly the fallback plan. -/
theorem plan_pipeline_error_routing_witness :
    planPipeline envUnparsable "g" "general" "t" =
      createDomainSpecificFallback "g" "general" "t" :=
  (plan_pipeline_error_routing envUnparsable "g" "general" "t").1
    (J.obj [("choices", J.arr [J.obj [("text", J.str "This is not JSON")]])])
    "This is not JSON" rfl rfl rfl

/-- C4 counterexample: the raw text `[]` is syntactically valid JSON that
does not resolve to an object; `json.loads` succeeds on it (no
`MalformedPlanError`), and the pipeline then dies with an uncaught
`TypeError` at the `parsed_json["generated_at"]` assignment instead of
taking the malformed-plan fallback route. -/
theorem plan_pipeline_nonobject_parse_typeerror :
    planPipeline envArrayOutput "g" "general" "t" = .error .typeError := rfl

/-- C4 amended: the parsing step (`json.loads`) fails with the decode error
exactly when the text is not syntactically valid JSON; a syntactically valid
non-object (array or scalar) passes the parse step unmodified, after which
the `generated_at` insertion raises a `TypeError` that propagates uncaught
(while a decode failure is caught and routed to the fallback generator). -/
theorem parse_step_amended (env : PlanEnv) (goal domain now : String) :
    (∀ resp out v, env.llmResp = .ok resp → extractRespText resp = .ok out →
      env.loads out = .ok v → isObj v = false →
      planPipeline env goal domain now = .error .typeError) ∧
    (∀ resp out, env.llmResp = .ok resp → extractRespText resp = .ok out →
      env.loads out = .error .decodeError →
      planPipeline env goal domain now = createDomainSpecificFallback goal domain now) := by
  constructor
  · intro resp out v h1 h2 h3 h4
    have h5 : pySetItem v "generated_at" (J.str now) = .error .typeError := by
      cases v <;> simp_all [isObj, pySetItem]
    simp [planPipeline, planTryBody, h1, h2, h3, h5, isCaught]
  · intro resp out h1 h2 h3
    simp [planPipeline, planTryBody, h1, h2, h3, isCaught]

/-- Witness for C4's amended theorem at a concrete run: model output `5`
decodes to a scalar and the pipeline fails with `TypeError`. -/
theorem parse_step_amended_witness :
    planPipeline envScalarOutput "g" "general" "t" = .error .typeError :=
  (parse_step_amended envScalarOutput "g" "general" "t").1
    (J.obj [("choices", J.arr [J.obj [("text", J.str "5")]])])
    "5" (J.num 5) rfl rfl rfl rfl

/-- C6 counterexample: for the domain `general` (no template), the fallback
plan generator returns a plan whose `coder` section has `tasks` but no
`file_structure` at all — so not every field required by §3 is populated. -/
theorem fallback_general_lacks_file_structure :
    ∃ p, createDomainSpecificFallback "g" "general" "t" = .ok p ∧
      planHas2 p "coder" "tasks" = true ∧ planHas2 p "coder" "file_structure" = false :=
  ⟨_, rfl, rfl, rfl⟩

/-- C8 counterexample: for the template domain `dashboard`, when
`plan.coder.file_structure` pre-exists, enhancement raises
`KeyError: file_structure` (the dashboard template has no such entry)
instead of overwriting the key. -/
theorem enhance_dashboard_keyerror :
    enhanceWithDomainContent (J.obj [("coder", J.obj [("file_structure", J.obj [])])])
      "g" "dashboard" = .error (.keyError "file_structure") := rfl

/-- C8 amended: for every structurally well-formed plan and goal, when the
domain has no template, enhancement returns the plan unchanged; when the
domain has a template, each of the three overwrites
(`planner.requirements.core_features`, `designer.pages`,
`coder.file_structure`) happens exactly when its guard key pre-exists and
takes its value from the template, and the path is never created — except
that when `coder.file_structure` pre-exists and the template has no
`file_structure` entry (dashboard, social), the lookup raises
`KeyError: file_structure` instead of overwriting. -/
theorem enhance_amended (p : J) (g d : String) (hwf : wfPlan p = true) :
    (objGet domainTemplates d = none → enhanceWithDomainContent p g d = .ok p) ∧
    (objMem domainTemplates d = true →
      ((planHas2 p "coder" "file_structure" = true ∧
          templateEntry d "file_structure" = none) →
        enhanceWithDomainContent p g d = .error (.keyError "file_structure")) ∧
      (¬ (planHas2 p "coder" "file_structure" = true ∧
            templateEntry d "file_structure" = none) →
        ∃ q, enhanceWithDomainContent p g d = .ok q ∧
          (planHas2 p "planner" "requirements" = true →
            planPath3 q "planner" "requirements" "core_features" =
              templateEntry d "core_features") ∧
          (planHas2 p "planner" "requirements" = false →
            planField q "planner" = planField p "planner") ∧
          (planHas2 p "designer" "pages" = true →
            planPath2 q "designer" "pages" = templateEntry d "pages") ∧
          (planHas2 p "designer" "pages" = false →
            planField q "designer" = planField p "designer") ∧
          (planHas2 p "coder" "file_structure" = true →
            planPath2 q "coder" "file_structure" = templateEntry d "file_structure") ∧
          (planHas2 p "coder" "file_structure" = false →
            planField q "coder" = planField p "coder"))) := by
  constructor
  · intro hnone
    unfold enhanceWithDomainContent
    rw [hnone]
  · intro hm
    obtain ⟨kvs, rfl, hwfP, hwfC, hwfD, hwfR⟩ := wfPlan_parts hwf
    rcases domainTemplates_cases hm with ⟨hd, -⟩ | ⟨hd, -⟩ | ⟨hd, -⟩ <;> subst hd
    · have hred : enhanceWithDomainContent (J.obj kvs) g "marketplace" =
          (enhanceRequirements (J.obj marketplaceTemplate) (J.obj kvs) >>=
            enhancePages (J.obj marketplaceTemplate) >>=
            enhanceFileStructure (J.obj marketplaceTemplate)) := rfl
      obtain ⟨hErrC, hOkC⟩ := enhanceChain_wf marketplaceTemplate
        mktCoreFeatures mktPages hwfP hwfC hwfD hwfR rfl rfl
      constructor
      · rintro ⟨-, hfse⟩
        have hx : (templateEntry "marketplace" "file_structure").isSome = true := rfl
        rw [hfse] at hx
        exact Bool.noConfusion hx
      · intro hnot
        obtain ⟨q, hq, c1, c2, c3, c4, c5, c6⟩ := hOkC (some mktFileStructure) rfl
          (by rintro ⟨-, hx⟩; exact Option.noConfusion hx)
        exact ⟨q, by rw [hred]; exact hq, c1, c2, c3, c4, c5, c6⟩
    · have hred : enhanceWithDomainContent (J.obj kvs) g "dashboard" =
          (enhanceRequirements (J.obj dashboardTemplate) (J.obj kvs) >>=
            enhancePages (J.obj dashboardTemplate) >>=
            enhanceFileStructure (J.obj dashboardTemplate)) := rfl
      obtain ⟨hErrC, hOkC⟩ := enhanceChain_wf dashboardTemplate
        dashCoreFeatures dashPages hwfP hwfC hwfD hwfR rfl rfl
      constructor
      · rintro ⟨hfs, -⟩
        rw [hred]
        exact hErrC ⟨hfs, rfl⟩
      · intro hnot
        have hfs' : planHas2 (J.obj kvs) "coder" "file_structure" = false := by
          cases hb : planHas2 (J.obj kvs) "coder" "file_structure" with
          | true => exact absurd ⟨hb, rfl⟩ hnot
          | false => rfl
        obtain ⟨q, hq, c1, c2, c3, c4, c5, c6⟩ := hOkC none rfl
          (by rintro ⟨hx, -⟩; rw [hfs'] at hx; exact Bool.noConfusion hx)
        exact ⟨q, by rw [hred]; exact hq, c1, c2, c3, c4, c5, c6⟩
    · have hred : enhanceWithDomainContent (J.obj kvs) g "social" =
          (enhanceRequirements (J.obj socialTemplate) (J.obj kvs) >>=
            enhancePages (J.obj socialTemplate) >>=
            enhanceFileStructure (J.obj socialTemplate)) := rfl
      obtain ⟨hErrC, hOkC⟩ := enhanceChain_wf socialTemplate
        socCoreFeatures socPages hwfP hwfC hwfD hwfR rfl rfl
      constructor
      · rintro ⟨hfs, -⟩
        rw [hred]
        exact hErrC ⟨hfs, rfl⟩
      · intro hnot
        have hfs' : planHas2 (J.obj kvs) "coder" "file_structure" = false := by
          cases hb : planHas2 (J.obj kvs) "coder" "file_structure" with
          | true => exact absurd ⟨hb, rfl⟩ hnot
          | false => rfl
        obtain ⟨q, hq, c1, c2, c3, c4, c5, c6⟩ := hOkC none rfl
          (by rintro ⟨hx, -⟩; rw [hfs'] at hx; exact Bool.noConfusion hx)
        exact ⟨q, by rw [hred]; exact hq, c1, c2, c3, c4, c5, c6⟩

/-- Witness for C8's amended theorem at a concrete well-formed plan: for the
empty plan and the template-less domain `general`, enhancement is the
identity. -/
theorem enhance_amended_witness :
    enhanceWithDomainContent (J.obj []) "g" "general" = .ok (J.obj []) :=
  (enhance_amended (J.obj []) "g" "general" rfl).1 rfl

/-- C9 counterexample: for the plan `{"coder": {}, "designer": {}}` and the
domain `social`, the field completer raises `KeyError: file_structure`
instead of returning a completed plan, refuting the universally quantified
claim. -/
theorem ensure_social_keyerror :
    ensureCriticalFields (J.obj [("coder", J.obj []), ("designer", J.obj [])])
      "g" "social" = .error (.keyError "file_structure") := rfl

/-- C9 amended: for every structurally well-formed plan, goal and domain,
the field completer raises `KeyError: file_structure` exactly when
`coder.file_structure` must be completed for `dashboard` or `social` (whose
templates lack that entry); in every other case it returns a plan in which
`domain` is overwritten with the classifier's domain, `planner` and
`planner.requirements` exist, and `coder.file_structure` / `designer.pages`
are populated from the template exactly when the key was literally absent —
key presence, not emptiness, decides, so a present-but-empty list is left
untouched. -/
theorem ensure_amended (p : J) (g d : String) (hwf : wfPlan p = true) :
    (((d = "dashboard" ∨ d = "social") ∧
        planHas2 p "coder" "file_structure" = false) →
      ensureCriticalFields p g d = .error (.keyError "file_structure")) ∧
    (¬ ((d = "dashboard" ∨ d = "social") ∧
        planHas2 p "coder" "file_structure" = false) →
      ∃ q, ensureCriticalFields p g d = .ok q ∧
        planField q "domain" = some (J.str d) ∧
        planHas q "planner" = true ∧
        planHas2 q "planner" "requirements" = true ∧
        (planHas2 p "coder" "file_structure" = true →
          planPath2 q "coder" "file_structure" =
            planPath2 p "coder" "file_structure") ∧
        (planHas2 p "coder" "file_structure" = false →
          planPath2 q "coder" "file_structure" = templateEntry d "file_structure") ∧
        (planHas2 p "designer" "pages" = true →
          planPath2 q "designer" "pages" = planPath2 p "designer" "pages") ∧
        (planHas2 p "designer" "pages" = false →
          planPath2 q "designer" "pages" = templateEntry d "pages")) := by
  obtain ⟨kvs, rfl, hwfP, hwfC, hwfD, -⟩ := wfPlan_parts hwf
  have hDom : ensureDomainField d (J.obj kvs) =
      .ok (J.obj (objSet kvs "domain" (J.str d))) := by
    simp [ensureDomainField, pySetItem]
  have hg1P : objGet (objSet kvs "domain" (J.str d)) "planner" = objGet kvs "planner" :=
    objGet_objSet_ne _ _ _ _ (by decide)
  have hg1C : objGet (objSet kvs "domain" (J.str d)) "coder" = objGet kvs "coder" :=
    objGet_objSet_ne _ _ _ _ (by decide)
  have hg1D : objGet (objSet kvs "domain" (J.str d)) "designer" = objGet kvs "designer" :=
    objGet_objSet_ne _ _ _ _ (by decide)
  have hg1dom : objGet (objSet kvs "domain" (J.str d)) "domain" = some (J.str d) :=
    objGet_objSet_self _ _ _
  have hwfP1 : wfObjField (objSet kvs "domain" (J.str d)) "planner" = true := by
    rw [wfObjField_congr hg1P]
    exact hwfP
  obtain ⟨q2, hPl⟩ := stepPlanner_ok hwfP1
  obtain ⟨hq2o, hf2, v, hv, hvr, htrk⟩ := stepPlanner_post hPl
  obtain ⟨kvs2, rfl⟩ := isObj_obj hq2o
  have hplv : ∃ kvp, v = J.obj kvp ∧ objMem kvp "requirements" = true := by
    rcases htrk with htrk | htrk
    · simp only [planField] at htrk
      rw [hg1P] at htrk
      cases v with
      | obj kvp =>
        refine ⟨kvp, rfl, ?_⟩
        simpa [pyContains] using hvr
      | null => simp [wfObjField, htrk] at hwfP
      | bool b => simp [wfObjField, htrk] at hwfP
      | num n => simp [wfObjField, htrk] at hwfP
      | str s => simp [wfObjField, htrk] at hwfP
      | arr xs => simp [wfObjField, htrk] at hwfP
    · exact htrk
  have h2dom : objGet kvs2 "domain" = some (J.str d) := by
    have h := hf2 "domain" (by decide)
    simp only [planField] at h
    rw [h]
    exact hg1dom
  have h2C : objGet kvs2 "coder" = objGet kvs "coder" := by
    have h := hf2 "coder" (by decide)
    simp only [planField] at h
    rw [h]
    exact hg1C
  have h2D : objGet kvs2 "designer" = objGet kvs "designer" := by
    have h := hf2 "designer" (by decide)
    simp only [planField] at h
    rw [h]
    exact hg1D
  have h2P : objGet kvs2 "planner" = some v := by simpa [planField] using hv
  have hwfC2 : wfObjField kvs2 "coder" = true := by
    rw [wfObjField_congr h2C]
    exact hwfC
  constructor
  · rintro ⟨hd, habs⟩
    have habs2 : planHas2 (J.obj kvs2) "coder" "file_structure" = false := by
      simpa [planHas2, planPath2, planField, h2C] using habs
    have hCo : ensureCoderField d (J.obj kvs2) = .error (.keyError "file_structure") := by
      rcases hd with hd | hd
      · subst hd
        have he : objGet domainTemplates "dashboard" = some (J.obj dashboardTemplate) := rfl
        exact stepCoder_error he rfl hwfC2 habs2
      · subst hd
        have he : objGet domainTemplates "social" = some (J.obj socialTemplate) := rfl
        exact stepCoder_error he rfl hwfC2 habs2
    unfold ensureCriticalFields
    rw [hDom]
    simp only [except_bind_ok]
    rw [hPl]
    simp only [except_bind_ok]
    rw [hCo]
    rfl
  · intro hnot
    have hok : planHas2 (J.obj kvs2) "coder" "file_structure" = true ∨
        objMem domainTemplates d = false ∨
        ∃ fs, templateEntry d "file_structure" = some fs := by
      by_cases hfs : planHas2 (J.obj kvs) "coder" "file_structure" = true
      · left
        simpa [planHas2, planPath2, planField, h2C] using hfs
      · have hfs' : planHas2 (J.obj kvs) "coder" "file_structure" = false := by
          cases hb : planHas2 (J.obj kvs) "coder" "file_structure" with
          | true => exact absurd hb hfs
          | false => rfl
        have hd1 : d ≠ "dashboard" := fun hh => hnot ⟨Or.inl hh, hfs'⟩
        have hd2 : d ≠ "social" := fun hh => hnot ⟨Or.inr hh, hfs'⟩
        cases hm : objMem domainTemplates d with
        | false => exact Or.inr (Or.inl rfl)
        | true =>
          exact Or.inr (Or.inr ⟨mktFileStructure,
            templateEntry_file_structure hm hd1 hd2⟩)
    obtain ⟨q3, hCo⟩ := stepCoder_ok hwfC2 hok
    obtain ⟨hq3o, hf3, v2, hv2, ⟨b2, hb2, hb2d⟩, htrk2⟩ := stepCoder_post hCo
    obtain ⟨kvs3, rfl⟩ := isObj_obj hq3o
    have h3dom : objGet kvs3 "domain" = some (J.str d) := by
      have h := hf3 "domain" (by decide)
      simp only [planField] at h
      rw [h]
      exact h2dom
    have h3P : objGet kvs3 "planner" = some v := by
      have h := hf3 "planner" (by decide)
      simp only [planField] at h
      rw [h]
      exact h2P
    have h3D : objGet kvs3 "designer" = objGet kvs "designer" := by
      have h := hf3 "designer" (by decide)
      simp only [planField] at h
      rw [h]
      exact h2D
    have h3C : objGet kvs3 "coder" = some v2 := by simpa [planField] using hv2
    have hwfD3 : wfObjField kvs3 "designer" = true := by
      rw [wfObjField_congr h3D]
      exact hwfD
    obtain ⟨q4, hDe⟩ := stepDesigner_ok d hwfD3
    obtain ⟨hq4o, hf4, v3, hv3, ⟨b3, hb3, hb3d⟩, htrk3⟩ := stepDesigner_post hDe
    obtain ⟨kvs4, rfl⟩ := isObj_obj hq4o
    have h4dom : objGet kvs4 "domain" = some (J.str d) := by
      have h := hf4 "domain" (by decide)
      simp only [planField] at h
      rw [h]
      exact h3dom
    have h4P : objGet kvs4 "planner" = some v := by
      have h := hf4 "planner" (by decide)
      simp only [planField] at h
      rw [h]
      exact h3P
    have h4C : objGet kvs4 "coder" = some v2 := by
      have h := hf4 "coder" (by decide)
      simp only [planField] at h
      rw [h]
      exact h3C
    have h4D : objGet kvs4 "designer" = some v3 := by simpa [planField] using hv3
    have hEq : ensureCriticalFields (J.obj kvs) g d = .ok (J.obj kvs4) := by
      unfold ensureCriticalFields
      rw [hDom]
      simp only [except_bind_ok]
      rw [hPl]
      simp only [except_bind_ok]
      rw [hCo]
      simp only [except_bind_ok]
      exact hDe
    refine ⟨J.obj kvs4, hEq, by simp [planField, h4dom], ?_, ?_, ?_, ?_, ?_, ?_⟩
    · simp [planHas, planField, h4P]
    · obtain ⟨kvp, rfl, hkr⟩ := hplv
      simp [planHas2, planPath2, planField, h4P]
      exact hkr
    · intro hpres
      rcases htrk2 with htrk2 | ⟨habs0, -, -⟩ | ⟨fs, hfse, htrk2⟩
      · simp only [planField] at htrk2
        have hvo : objGet kvs "coder" = some v2 := by
          rw [← h2C]
          exact htrk2
        simp [planPath2, planField, h4C, hvo]
      · exfalso
        simp only [planField] at habs0
        rw [h2C] at habs0
        simp [planHas2, planPath2, planField, habs0] at hpres
      · rcases htrk2 with ⟨habs0, -⟩ | ⟨kvw, hw0, hfsw, -⟩
        · exfalso
          simp only [planField] at habs0
          rw [h2C] at habs0
          simp [planHas2, planPath2, planField, habs0] at hpres
        · exfalso
          simp only [planField] at hw0
          rw [h2C] at hw0
          simp [planHas2, planPath2, planField, hw0] at hpres
          simp only [objMem] at hfsw
          rw [hfsw] at hpres
          exact Bool.noConfusion hpres
    · intro habsn
      rcases htrk2 with htrk2 | ⟨habs0, hm0, hveq⟩ | ⟨fs, hfse, htrk2⟩
      · simp only [planField] at htrk2
        have hvo : objGet kvs "coder" = some v2 := by
          rw [← h2C]
          exact htrk2
        have hobj : ∃ kvw, v2 = J.obj kvw := by
          cases v2 with
          | obj kvw => exact ⟨kvw, rfl⟩
          | null => simp [wfObjField, hvo] at hwfC
          | bool b => simp [wfObjField, hvo] at hwfC
          | num n => simp [wfObjField, hvo] at hwfC
          | str s => simp [wfObjField, hvo] at hwfC
          | arr xs => simp [wfObjField, hvo] at hwfC
        obtain ⟨kvw, rfl⟩ := hobj
        have hfsw : objMem kvw "file_structure" = false := by
          simpa [planHas2, planPath2, planField, hvo, objMem] using habsn
        have hb2' : b2 = false := by
          simp only [pyContains, Except.ok.injEq] at hb2
          rw [hfsw] at hb2
          exact hb2.symm
        have hm0 : objMem domainTemplates d = false := by
          rcases hb2d with hb | hb
          · rw [hb2'] at hb
            exact absurd hb (by simp)
          · exact hb
        rw [templateEntry_none hm0]
        have hnone := objMem_none hfsw
        simp [planPath2, planField, h4C, hnone]
      · subst hveq
        rw [templateEntry_none hm0]
        simp [planPath2, planField, h4C, objGet]
      · rcases htrk2 with ⟨habs0, hveq⟩ | ⟨kvw, hw0, hfsw, hveq⟩
        · subst hveq
          rw [hfse]
          simp [planPath2, planField, h4C, objGet]
        · subst hveq
          rw [hfse]
          simp [planPath2, planField, h4C, objGet_objSet_self]
    · intro hpres
      rcases htrk3 with htrk3 | ⟨habs0, -, -⟩ | ⟨pg, hpge, htrk3⟩
      · simp only [planField] at htrk3
        have hvo : objGet kvs "designer" = some v3 := by
          rw [← h3D]
          exact htrk3
        simp [planPath2, planField, h4D, hvo]
      · exfalso
        simp only [planField] at habs0
        rw [h3D] at habs0
        simp [planHas2, planPath2, planField, habs0] at hpres
      · rcases htrk3 with ⟨habs0, -⟩ | ⟨kvw, hw0, hfsw, -⟩
        · exfalso
          simp only [planField] at habs0
          rw [h3D] at habs0
          simp [planHas2, planPath2, planField, habs0] at hpres
        · exfalso
          simp only [planField] at hw0
          rw [h3D] at hw0
          simp [planHas2, planPath2, planField, hw0] at hpres
          simp only [objMem] at hfsw
          rw [hfsw] at hpres
          exact Bool.noConfusion hpres
    · intro habsn
      rcases htrk3 with htrk3 | ⟨habs0, hm0, hveq⟩ | ⟨pg, hpge, htrk3⟩
      · simp only [planField] at htrk3
        have hvo : objGet kvs "designer" = some v3 := by
          rw [← h3D]
          exact htrk3
        have hobj : ∃ kvw, v3 = J.obj kvw := by
          cases v3 with
          | obj kvw => exact ⟨kvw, rfl⟩
          | null => simp [wfObjField, hvo] at hwfD
          | bool b => simp [wfObjField, hvo] at hwfD
          | num n => simp [wfObjField, hvo] at hwfD
          | str s => simp [wfObjField, hvo] at hwfD
          | arr xs => simp [wfObjField, hvo] at hwfD
        obtain ⟨kvw, rfl⟩ := hobj
        have hfsw : objMem kvw "pages" = false := by
          simpa [planHas2, planPath2, planField, hvo, objMem] using habsn
        have hb3' : b3 = false := by
          simp only [pyContains, Except.ok.injEq] at hb3
          rw [hfsw] at hb3
          exact hb3.symm
        have hm0 : objMem domainTemplates d = false := by
          rcases hb3d with hb | hb
          · rw [hb3'] at hb
            exact absurd hb (by simp)
          · exact hb
        rw [templateEntry_none hm0]
        have hnone := objMem_none hfsw
        simp [planPath2, planField, h4D, hnone]
      · subst hveq
        rw [templateEntry_none hm0]
        simp [planPath2, planField, h4D, objGet]
      · rcases htrk3 with ⟨habs0, hveq⟩ | ⟨kvw, hw0, hfsw, hveq⟩
        · subst hveq
          rw [hpge]
          simp [planPath2, planField, h4D, objGet]
        · subst hveq
          rw [hpge]
          simp [planPath2, planField, h4D, objGet_objSet_self]

/-- Witness for C9's amended theorem at a concrete well-formed plan: the
empty plan with the domain `general`. -/
theorem ensure_amended_witness :
    ∃ q, ensureCriticalFields (J.obj []) "g" "general" = .ok q ∧
      planField q "domain" = some (J.str "general") ∧
      planHas q "planner" = true ∧
      planHas2 q "planner" "requirements" = true ∧
      (planHas2 (J.obj []) "coder" "file_structure" = true →
        planPath2 q "coder" "file_structure" =
          planPath2 (J.obj []) "coder" "file_structure") ∧
      (planHas2 (J.obj []) "coder" "file_structure" = false →
        planPath2 q "coder" "file_structure" =
          templateEntry "general" "file_structure") ∧
      (planHas2 (J.obj []) "designer" "pages" = true →
        planPath2 q "designer" "pages" = planPath2 (J.obj []) "designer" "pages") ∧
      (planHas2 (J.obj []) "designer" "pages" = false →
        planPath2 q "designer" "pages" = templateEntry "general" "pages") :=
  (ensure_amended (J.obj []) "g" "general" rfl).2 (by decide)

/-- C7: for the goal `"Build a shoe marketplace"`, when the classifier
response resolves to `marketplace` and the planning model output is
unparsable, the final plan has `domain = "marketplace"`, a
`coder.file_structure` containing the key `"src/components/ProductCard.js"`,
and `planner.subtasks` a non-empty sequence of exactly 4 strings that
reference "marketplace" or "requirements" (two subtasks mention
"marketplace", one mentions "requirements"). -/
theorem marketplace_end_to_end (now : String) :
    detectDomain clsMarketplaceResp = "marketplace" ∧
    ∃ p, planPipeline envUnparsable "Build a shoe marketplace"
        (detectDomain clsMarketplaceResp) now = .ok p ∧
      planField p "domain" = some (J.str "marketplace") ∧
      (∃ fs, planPath2 p "coder" "file_structure" = some (J.obj fs) ∧
        objMem fs "src/components/ProductCard.js" = true) ∧
      ∃ sts, planPath2 p "planner" "subtasks" = some (J.arr sts) ∧
        sts = [J.str "Define marketplace requirements and user stories",
               J.str "Research relevant APIs and third-party services",
               J.str "Plan technical architecture for marketplace application",
               J.str "Create development timeline and milestones"] ∧
        sts.length = 4 ∧ sts ≠ [] ∧
        (sts.any (fun s => match s with
          | J.str t => strIn "marketplace" t || strIn "requirements" t
          | _ => false)) = true := by
  refine ⟨rfl, _, rfl, rfl, ⟨_, rfl, rfl⟩, _, rfl, rfl, rfl, by simp, rfl⟩

/-- C10: running the field completer (`_ensure_critical_fields`) twice on
the same plan yields the same result as running it once, for every plan,
goal and domain — including the error cases, where the second run inherits
the first run's exception. -/
theorem ensureCriticalFields_idempotent (p : J) (goal domain : String) :
    (ensureCriticalFields p goal domain).bind
      (fun q => ensureCriticalFields q goal domain) =
      ensureCriticalFields p goal domain := by
  cases h : ensureCriticalFields p goal domain with
  | error e => rfl
  | ok q =>
    have h' := h
    unfold ensureCriticalFields at h'
    obtain ⟨q3, hX, hDe⟩ := except_bind_eq_ok h'
    obtain ⟨q2, hY, hCo⟩ := except_bind_eq_ok hX
    obtain ⟨q1, hDom, hPl⟩ := except_bind_eq_ok hY
    obtain ⟨hq1o, hd1, hf1⟩ := stepDomain_post hDom
    obtain ⟨hq2o, hf2, v, hv, hvr, -⟩ := stepPlanner_post hPl
    obtain ⟨hq3o, hf3, v2, hv2, ⟨b2, hb2, hb2d⟩, -⟩ := stepCoder_post hCo
    obtain ⟨hqo, hf4, v3, hv3, ⟨b3, hb3, hb3d⟩, -⟩ := stepDesigner_post hDe
    have hdom : planField q "domain" = some (J.str domain) := by
      rw [hf4 _ (by decide), hf3 _ (by decide), hf2 _ (by decide)]
      exact hd1
    have hpl : planField q "planner" = some v := by
      rw [hf4 _ (by decide), hf3 _ (by decide)]
      exact hv
    have hco : planField q "coder" = some v2 := by
      rw [hf4 _ (by decide)]
      exact hv2
    have s1 := stepDomain_fix hqo hdom
    have s2 := stepPlanner_fix hqo hpl hvr
    have s3 := stepCoder_fix hqo hco hb2 hb2d
    have s4 := stepDesigner_fix hqo hv3 hb3 hb3d
    have hfix : ensureCriticalFields q goal domain = .ok q := by
      unfold ensureCriticalFields
      rw [s1]
      simp only [except_bind_ok]
      rw [s2]
      simp only [except_bind_ok]
      rw [s3]
      simp only [except_bind_ok]
      exact s4
    simpa [Except.bind] using hfix

/-- C6 amended: for every goal, the fallback generator behaves as claimed
only for the domain `marketplace` (every §3 field populated, with the
template's `core_features`, `file_structure` and `pages` fully replacing the
generic defaults); for `general` it populates every §3 field except
`coder.file_structure`, which is absent from the generic base plan; and for
`dashboard` and `social` it raises `KeyError: file_structure` instead of
returning a plan, because those templates lack a `file_structure` entry. -/
theorem fallback_amended (goal now : String) :
    (∃ p, createDomainSpecificFallback goal "marketplace" now = .ok p ∧
      planField p "goal" = some (J.str goal) ∧
      planField p "project_type" = some (J.str "web_application") ∧
      planField p "domain" = some (J.str "marketplace") ∧
      planField p "generated_at" = some (J.str now) ∧
      planHas2 p "planner" "subtasks" = true ∧
      planHas2 p "planner" "requirements" = true ∧
      planPath3 p "planner" "requirements" "core_features" = some mktCoreFeatures ∧
      planHas2 p "coder" "tasks" = true ∧
      planHas2 p "coder" "technical_specs" = true ∧
      planPath2 p "coder" "file_structure" = some mktFileStructure ∧
      planHas2 p "designer" "theme" = true ∧
      planPath2 p "designer" "pages" = some mktPages ∧
      planHas2 p "designer" "design_system" = true) ∧
    (∃ p, createDomainSpecificFallback goal "general" now = .ok p ∧
      planField p "goal" = some (J.str goal) ∧
      planField p "project_type" = some (J.str "web_application") ∧
      planField p "domain" = some (J.str "general") ∧
      planField p "generated_at" = some (J.str now) ∧
      planHas2 p "planner" "subtasks" = true ∧
      planHas2 p "planner" "requirements" = true ∧
      planHas2 p "coder" "tasks" = true ∧
      planHas2 p "coder" "technical_specs" = true ∧
      planHas2 p "designer" "theme" = true ∧
      planHas2 p "designer" "pages" = true ∧
      planHas2 p "designer" "design_system" = true ∧
      planHas2 p "coder" "file_structure" = false) ∧
    createDomainSpecificFallback goal "dashboard" now = .error (.keyError "file_structure") ∧
    createDomainSpecificFallback goal "social" now = .error (.keyError "file_structure") := by
  refine ⟨⟨_, rfl, rfl, rfl, rfl, rfl, rfl, rfl, rfl, rfl, rfl, rfl, rfl, rfl, rfl⟩,
    ⟨_, rfl, rfl, rfl, rfl, rfl, rfl, rfl, rfl, rfl, rfl, rfl, rfl, rfl⟩, rfl, rfl⟩

end MultiAgent
